import Mathlib

/-!
gocsv: decoding CSV rows into records and encoding records into CSV rows

A shallow embedding of `decode.go` (`maybeMissingStructFields`, `readTo`,
`ensureOutType`, `ensureOutInnerType`, `ensureOutCapacity`, `getCSVFieldPosition`,
`createNewOutInner`, `setInnerField`) and of `encode.go` (`writeFromChan`, `writeTo`,
`ensureStructOrPtr`, `ensureInType`, `ensureInInnerType`, `getInnerField`).

Go values that the two files reach through reflection are the terms of `Value`.
A function that mutates its destination is a function from the old destination to the
new one, paired with what the Go function returned: `Except.ok ()` for a nil error,
`Failure.error` for a non-nil error and `Failure.panic` for a run-time panic.

What the two files use but do not define is kept apart:
* the text coercions `setField` and `getFieldAsString` are the two fields of a
  `Coercer`, over which the statements about the two files are quantified; the round
  trip is stated for `specCoercer`, their model for the primitive kinds;
* the result of `getStructInfo` for the element type is the `info` of a `StructType`;
* the row source is the value `ReadAll` returned; the row sink is `SafeCSVWriter`.
-/

namespace gocsv

/-! ## Values and descriptors -/

/-- Go values as reflection presents them. A `float64` is kept as its bit pattern and
is never interpreted. A timestamp is kept as the nanoseconds since the zero time. A
nil pointer is `ptr none`. -/
inductive Value where
  | str (s : String)
  | int (i : Int)
  | bool (b : Bool)
  | float (bits : Nat)
  | time (nanos : Nat)
  | ptr (target : Option Value)
  | struct (fields : List Value)

/-- Modelled from the spec: the Field Descriptor `fieldInfo`, declared outside src,
with the members the two files use: `decode.go` reads `Key` (the name a header is
compared with) and `Num` (the position of the field in the struct), `encode.go`
reads `IndexChain` (the access path) and calls `getFirstKey` on the alias list
`keys`; `omitEmpty` is the omit-if-empty flag. -/
structure fieldInfo where
  Key : String
  Num : Nat
  keys : List String
  IndexChain : List Nat
  omitEmpty : Bool
deriving DecidableEq, Repr

/-- Modelled from the spec: the Type Descriptor `structInfo`, declared outside src:
the field descriptors of a record type, in order. -/
structure structInfo where
  Fields : List fieldInfo
deriving DecidableEq, Repr

/-- The errors the two files construct or pass on, each with the data its message is
built from.
* `notContainer`: "cannot use T, only slice or array supported"
* `notStruct`: "cannot use T, only struct supported"
* `source`: the error of `ReadAll`
* `arrayCapacity n`: "array capacity problem: cannot store n ..."
* `sliceCapacity`: "slice capacity problem and is not addressable (did you forget &?)"
* `noTags`: "no csv struct tags found"
* `unmatchedTag k`: "found unmatched struct tag k"
* `field m`: the error `setField` or `getFieldAsString` returned, unchanged
* `channelClosed`: "channel is closed"
* `sink m`: the error of the row sink, unchanged -/
inductive Err where
  | notContainer
  | notStruct
  | source (msg : String)
  | arrayCapacity (n : Int)
  | sliceCapacity
  | noTags
  | unmatchedTag (key : String)
  | field (msg : String)
  | channelClosed
  | sink (msg : String)
deriving DecidableEq, Repr

/-- How a call ends when it does not return nil: with a non-nil error, or with a
run-time panic (an index out of range, a reflect operation on the wrong kind). -/
inductive Failure where
  | error (e : Err)
  | panic (what : String)
deriving DecidableEq, Repr

/-- The text coercions `setField` and `getFieldAsString`, defined outside src, which
`decode.go` and `encode.go` call: a parameter of every definition that uses them.
`setField slot text` is the new content of the field `slot` after
`setField(field, text)` returned nil, or the message of its error;
`getFieldAsString v` is the text or the message of the error. -/
structure Coercer where
  setField : Value → String → Except String Value
  getFieldAsString : Value → Except String String

/-- The `reflect.Kind` of a container type, as far as the code distinguishes it. -/
inductive Kind where
  | Slice
  | Array
  | Other
deriving DecidableEq, Repr

/-- What reflection yields for the element type of a container, after one pointer
level is removed: whether it is a struct, its `getStructInfo`, and its zero value
`reflect.New(t).Elem()`. -/
structure StructType where
  isStruct : Bool
  info : structInfo
  zero : Value

/-- A container argument after `getConcreteReflectValueAndType` and
`getConcreteContainerInnerType`: its kind, whether it is addressable (it was passed
through a pointer), whether its elements are pointers, its element type and its
current elements. -/
structure Container where
  kind : Kind
  canAddr : Bool
  innerWasPointer : Bool
  inner : StructType
  elems : List Value

/-! ## decode.go -/

/-- Source: `maybeMissingStructFields`. `none` is the nil error. The `headerMap` set
is the membership test on `headers`. -/
def maybeMissingStructFields (structInfo : List fieldInfo) (headers : List String) : Option Err :=
  if structInfo.length = 0 then none
  else
    match structInfo.find? (fun info => !(headers.contains info.Key)) with
    | some info => some (Err.unmatchedTag info.Key)
    | none => none

/-- Source: `decoder.ensureOutType`. -/
def ensureOutType (outType : Kind) : Option Err :=
  match outType with
  | Kind.Slice => none
  | Kind.Array => none
  | Kind.Other => some Err.notContainer

/-- Source: `decoder.ensureOutInnerType`. -/
def ensureOutInnerType (outInnerType : StructType) : Option Err :=
  if outInnerType.isStruct then none else some Err.notStruct

/-- The zero value of an element of the container: a nil pointer when the elements
are pointers, the zero struct otherwise. -/
def zeroElem (out : Container) : Value :=
  if out.innerWasPointer then Value.ptr none else out.inner.zero

/-- Source: `decoder.ensureOutCapacity`. `csvLen` is `len(csvRows)`, so `csvLen - 1`
is computed in the integers and is `-1` for an empty input. -/
def ensureOutCapacity (out : Container) (csvLen : Nat) : Container × Option Err :=
  match out.kind with
  | Kind.Array =>
    if (out.elems.length : Int) < (csvLen : Int) - 1 then
      (out, some (Err.arrayCapacity ((csvLen : Int) - 1)))
    else (out, none)
  | Kind.Slice =>
    if !out.canAddr && decide ((out.elems.length : Int) < (csvLen : Int) - 1) then
      (out, some Err.sliceCapacity)
    else if out.canAddr && decide ((out.elems.length : Int) < (csvLen : Int) - 1) then
      ({ out with elems := List.replicate (csvLen - 1) (zeroElem out) }, none)
    else (out, none)
  | Kind.Other => (out, none)

/-- Source: `decoder.getCSVFieldPosition`. `none` is the nil pointer. -/
def getCSVFieldPosition (key : String) (structInfo : structInfo) : Option fieldInfo :=
  structInfo.Fields.find? (fun field => field.Key == key)

/-- Source: `decoder.createNewOutInner`. -/
def createNewOutInner (outInnerWasPointer : Bool) (outInnerType : StructType) : Value :=
  if outInnerWasPointer then Value.ptr (some outInnerType.zero) else outInnerType.zero

/-- The call `setField(s.Field(fieldPosition), value)` on a struct value `s`:
`Field` panics when `s` is not a struct or the position is out of range. -/
def setStructField (c : Coercer) (s : Value) (fieldPosition : Nat) (value : String) :
    Except Failure Value :=
  match s with
  | Value.struct fs =>
    match fs[fieldPosition]? with
    | some slot =>
      match c.setField slot value with
      | Except.ok v => Except.ok (Value.struct (fs.set fieldPosition v))
      | Except.error m => Except.error (Failure.error (Err.field m))
    | none => Except.error (Failure.panic "reflect: Field index out of range")
  | _ => Except.error (Failure.panic "reflect: call of reflect.Value.Field on non-struct Value")

/-- Source: `decoder.setInnerField`. -/
def setInnerField (c : Coercer) (outInner : Value) (outInnerWasPointer : Bool)
    (fieldPosition : Nat) (value : String) : Except Failure Value :=
  if outInnerWasPointer then
    match outInner with
    | Value.ptr (some s) =>
      match setStructField c s fieldPosition value with
      | Except.ok s1 => Except.ok (Value.ptr (some s1))
      | Except.error f => Except.error f
    | _ => Except.error (Failure.panic "reflect: call of reflect.Value.Field on zero Value")
  else setStructField c outInner fieldPosition value

/-- Source: `readTo`, the inner loop `for j, csvColumnContent := range csvRow`.
`csvHeadersLabels` lists, by column index, the entry of the Go map or `none` when
the map has no entry; `j` is the index of the first cell of `csvRow`. -/
def fillRow (c : Coercer) (csvHeadersLabels : List (Option fieldInfo))
    (outInnerWasPointer : Bool) : Nat → List String → Value → Except Failure Value
  | _, [], outInner => Except.ok outInner
  | j, csvColumnContent :: rest, outInner =>
    match csvHeadersLabels[j]?.join with
    | some fieldInfo =>
      match setInnerField c outInner outInnerWasPointer fieldInfo.Num csvColumnContent with
      | Except.ok o => fillRow c csvHeadersLabels outInnerWasPointer (j + 1) rest o
      | Except.error f => Except.error f
    | none => fillRow c csvHeadersLabels outInnerWasPointer (j + 1) rest outInner

/-- The statement `outValue.Index(i).Set(outInner)`: `Index` panics when `i` is out of
range, `Set` panics on an element of an array that is not addressable. -/
def setIndex (out : Container) (i : Nat) (outInner : Value) : Except Failure Container :=
  if i < out.elems.length then
    if out.kind = Kind.Array ∧ out.canAddr = false then
      Except.error (Failure.panic "reflect: reflect.Value.Set using unaddressable value")
    else Except.ok { out with elems := out.elems.set i outInner }
  else Except.error (Failure.panic "reflect: slice index out of range")

/-- Source: `readTo`, the outer loop `for i, csvRow := range body`; `i` is the index
of the first row of `body`. -/
def fillBody (c : Coercer) (csvHeadersLabels : List (Option fieldInfo)) :
    Nat → List (List String) → Container → Container × Except Failure Unit
  | _, [], out => (out, Except.ok ())
  | i, csvRow :: rest, out =>
    match fillRow c csvHeadersLabels out.innerWasPointer 0 csvRow
        (createNewOutInner out.innerWasPointer out.inner) with
    | Except.error f => (out, Except.error f)
    | Except.ok outInner =>
      match setIndex out i outInner with
      | Except.error f => (out, Except.error f)
      | Except.ok out1 => fillBody c csvHeadersLabels (i + 1) rest out1

/-- Source: `readTo`, the loop `for i, csvColumnHeader := range headers` that fills the
map `csvHeadersLabels`: entry `i` of the list is the value stored under key `i`, and
`none` when the map has no key `i`. -/
def csvHeadersLabels (headers : List String) (outInnerStructInfo : structInfo) :
    List (Option fieldInfo) :=
  headers.map (fun csvColumnHeader => getCSVFieldPosition csvColumnHeader outInnerStructInfo)

/-- Source: `decoder.readTo`. `source` is what `getCSVRows` returned;
`FailIfUnmatchedStructTags` is the package variable of that name. The result is the
destination as the call left it and what the call returned. -/
def readTo (c : Coercer) (FailIfUnmatchedStructTags : Bool)
    (source : Except String (List (List String))) (out : Container) :
    Container × Except Failure Unit :=
  match ensureOutType out.kind with
  | some e => (out, Except.error (Failure.error e))
  | none =>
    match ensureOutInnerType out.inner with
    | some e => (out, Except.error (Failure.error e))
    | none =>
      match source with
      | Except.error m => (out, Except.error (Failure.error (Err.source m)))
      | Except.ok csvRows =>
        match ensureOutCapacity out csvRows.length with
        | (out1, some e) => (out1, Except.error (Failure.error e))
        | (out1, none) =>
          if out.inner.info.Fields.length = 0 then
            (out1, Except.error (Failure.error Err.noTags))
          else
            match csvRows with
            | [] => (out1, Except.error (Failure.panic "index out of range [0] with length 0"))
            | headers :: body =>
              match maybeMissingStructFields out.inner.info.Fields headers,
                  FailIfUnmatchedStructTags with
              | some e, true => (out1, Except.error (Failure.error e))
              | _, _ => fillBody c (csvHeadersLabels headers out.inner.info) 0 body out1

/-! ## encode.go -/

/-- Modelled from the spec: the row sink `SafeCSVWriter`, declared outside src, with
`writeRow`, `flush` and `lastError`: the rows it has accepted, oldest first; how many
more calls of `Write` succeed before one fails (`none`: all of them); and the error
`Error()` reports after `Flush()`. -/
structure SafeCSVWriter where
  rows : List (List String)
  quota : Option Nat
  flushError : Option String

/-- Modelled from the spec: the call `writer.Write(row)` of the row sink (not in
src): the sink afterwards and the error returned. A failed write leaves the sink as
it was. -/
def SafeCSVWriter.Write (w : SafeCSVWriter) (row : List String) : SafeCSVWriter × Option Err :=
  match w.quota with
  | none => ({ w with rows := w.rows ++ [row] }, none)
  | some 0 => (w, some (Err.sink "write"))
  | some (n + 1) => ({ w with rows := w.rows ++ [row], quota := some n }, none)

/-- Modelled from the spec: the calls `writer.Flush(); return writer.Error()` of the
row sink (not in src) that end both encoders: "any buffered writer error detected at
flush time is surfaced to the caller". -/
def SafeCSVWriter.flushAndError (w : SafeCSVWriter) : SafeCSVWriter × Except Failure Unit :=
  match w.flushError with
  | none => (w, Except.ok ())
  | some m => (w, Except.error (Failure.error (Err.sink m)))

/-- Modelled from the spec: the method `fieldInfo.getFirstKey` (not in src), "the
first alias is canonical for encoding"; a descriptor without alias has no first key,
which is the panic of indexing an empty list. -/
def fieldInfo.getFirstKey (f : fieldInfo) : Except Failure String :=
  match f.keys with
  | k :: _ => Except.ok k
  | [] => Except.error (Failure.panic "index out of range [0] with length 0")

/-- The reflect call `v.Field(i)`. -/
def Field (v : Value) (i : Nat) : Except Failure Value :=
  match v with
  | Value.struct fs =>
    match fs[i]? with
    | some f => Except.ok f
    | none => Except.error (Failure.panic "reflect: Field index out of range")
  | _ => Except.error (Failure.panic "reflect: call of reflect.Value.Field on non-struct Value")

/-- The loop of `reflect.Value.FieldByIndex` after its first step: a pointer to an
embedded struct is followed, a nil one panics. -/
def fieldByIndexFrom : Value → List Nat → Except Failure Value
  | v, [] => Except.ok v
  | v, x :: rest =>
    match v with
    | Value.ptr (some (Value.struct fs)) =>
      match Field (Value.struct fs) x with
      | Except.ok f => fieldByIndexFrom f rest
      | Except.error e => Except.error e
    | Value.ptr _ =>
      Except.error (Failure.panic "reflect: indirection through nil pointer to embedded struct")
    | _ =>
      match Field v x with
      | Except.ok f => fieldByIndexFrom f rest
      | Except.error e => Except.error e

/-- The reflect call `v.FieldByIndex(index)`. -/
def FieldByIndex (v : Value) (index : List Nat) : Except Failure Value :=
  match index with
  | [] =>
    match v with
    | Value.struct _ => Except.ok v
    | _ => Except.error (Failure.panic "reflect: call of FieldByIndex on non-struct Value")
  | x :: rest =>
    match Field v x with
    | Except.ok f => fieldByIndexFrom f rest
    | Except.error e => Except.error e

/-- Source: `getInnerField`. `Elem()` of a nil pointer is the zero `reflect.Value`, on
which `FieldByIndex` panics. -/
def getInnerField (c : Coercer) (outInner : Value) (outInnerWasPointer : Bool)
    (index : List Nat) : Except Failure String :=
  let oi : Except Failure Value :=
    if outInnerWasPointer then
      match outInner with
      | Value.ptr (some s) => Except.ok s
      | _ => Except.error (Failure.panic "reflect: call of FieldByIndex on zero Value")
    else Except.ok outInner
  match oi with
  | Except.error e => Except.error e
  | Except.ok s =>
    match FieldByIndex s index with
    | Except.error e => Except.error e
    | Except.ok f =>
      match c.getFieldAsString f with
      | Except.ok text => Except.ok text
      | Except.error m => Except.error (Failure.error (Err.field m))

/-- Source: `writeTo` and `writeFromChan`, the loop
`for i, fieldInfo := range inInnerStructInfo.Fields` that fills `csvHeadersLabels`
with `fieldInfo.getFirstKey()`. -/
def headerLabels : List fieldInfo → Except Failure (List String)
  | [] => Except.ok []
  | fieldInfo :: rest =>
    match fieldInfo.getFirstKey with
    | Except.error e => Except.error e
    | Except.ok k =>
      match headerLabels rest with
      | Except.error e => Except.error e
      | Except.ok ks => Except.ok (k :: ks)

/-- Source: `writeTo` and the closure `write` of `writeFromChan`, the loop
`for j, fieldInfo := range inInnerStructInfo.Fields` that fills one row with
`getInnerField`; the first error ends it. -/
def fieldTexts (c : Coercer) (inInnerWasPointer : Bool) (val : Value) :
    List fieldInfo → Except Failure (List String)
  | [] => Except.ok []
  | fieldInfo :: rest =>
    match getInnerField c val inInnerWasPointer fieldInfo.IndexChain with
    | Except.error e => Except.error e
    | Except.ok text =>
      match fieldTexts c inInnerWasPointer val rest with
      | Except.error e => Except.error e
      | Except.ok texts => Except.ok (text :: texts)

/-- Source: `writeTo`, the loop `for i := 0; i < inLen; i++` that appends one row per
element to `toWrite`; the first error ends it. -/
def recordRows (c : Coercer) (inInnerWasPointer : Bool) (fields : List fieldInfo) :
    List Value → Except Failure (List (List String))
  | [] => Except.ok []
  | v :: rest =>
    match fieldTexts c inInnerWasPointer v fields with
    | Except.error e => Except.error e
    | Except.ok row =>
      match recordRows c inInnerWasPointer fields rest with
      | Except.error e => Except.error e
      | Except.ok rows => Except.ok (row :: rows)

/-- Source: `writeTo`, the loop `for _, row := range toWrite` with its early return. -/
def writeRows : List (List String) → SafeCSVWriter → SafeCSVWriter × Option Err
  | [], w => (w, none)
  | row :: rest, w =>
    match w.Write row with
    | (w1, some e) => (w1, some e)
    | (w1, none) => writeRows rest w1

/-- Source: `ensureInType`. -/
def ensureInType (outType : Kind) : Option Err :=
  match outType with
  | Kind.Slice => none
  | Kind.Array => none
  | Kind.Other => some Err.notContainer

/-- Source: `ensureInInnerType`. -/
def ensureInInnerType (outInnerType : StructType) : Option Err :=
  if outInnerType.isStruct then none else some Err.notStruct

/-- Source: `writeTo`. The result is the sink as the call left it and what the call
returned. -/
def writeTo (c : Coercer) (writer : SafeCSVWriter) (inp : Container) (omitHeaders : Bool) :
    SafeCSVWriter × Except Failure Unit :=
  match ensureInType inp.kind with
  | some e => (writer, Except.error (Failure.error e))
  | none =>
    match ensureInInnerType inp.inner with
    | some e => (writer, Except.error (Failure.error e))
    | none =>
      let header : Except Failure (List (List String)) :=
        if !omitHeaders then
          match headerLabels inp.inner.info.Fields with
          | Except.ok csvHeadersLabels => Except.ok [csvHeadersLabels]
          | Except.error e => Except.error e
        else Except.ok []
      match header with
      | Except.error e => (writer, Except.error e)
      | Except.ok toWrite0 =>
        match recordRows c inp.innerWasPointer inp.inner.info.Fields inp.elems with
        | Except.error e => (writer, Except.error e)
        | Except.ok rows =>
          match writeRows (toWrite0 ++ rows) writer with
          | (w1, some e) => (w1, Except.error (Failure.error e))
          | (w1, none) => w1.flushAndError

/-- The `reflect.Kind` of the type of a channel element, as far as
`ensureStructOrPtr` distinguishes it. -/
inductive ElemKind where
  | Struct
  | Ptr
  | Other
deriving DecidableEq, Repr

/-- What `getConcreteReflectValueAndType` and `getStructInfo` yield for one element
received from the channel: the value, the kind of its type and the struct info of its
type. -/
structure ChanValue where
  value : Value
  kind : ElemKind
  info : structInfo

/-- Source: `ensureStructOrPtr`. -/
def ensureStructOrPtr (t : ElemKind) : Option Err :=
  match t with
  | ElemKind.Struct => none
  | ElemKind.Ptr => none
  | ElemKind.Other => some Err.notContainer

/-- Source: `writeFromChan`, the closure `write`. -/
def chanWrite (c : Coercer) (inInnerWasPointer : Bool) (fields : List fieldInfo)
    (val : Value) (writer : SafeCSVWriter) : SafeCSVWriter × Except Failure Unit :=
  match fieldTexts c inInnerWasPointer val fields with
  | Except.error e => (writer, Except.error e)
  | Except.ok csvHeadersLabels =>
    match writer.Write csvHeadersLabels with
    | (w1, some e) => (w1, Except.error (Failure.error e))
    | (w1, none) => (w1, Except.ok ())

/-- Source: `writeFromChan`, the loop `for v := range c` over the elements received
after the first, followed by `Flush` and `Error`. `inType` is the kind of the first
element, which the loop checks again for every element. -/
def chanLoop (c : Coercer) (inType : ElemKind) (inInnerWasPointer : Bool)
    (fields : List fieldInfo) : List ChanValue → SafeCSVWriter →
    SafeCSVWriter × Except Failure Unit
  | [], writer => writer.flushAndError
  | v :: rest, writer =>
    match ensureStructOrPtr inType with
    | some e => (writer, Except.error (Failure.error e))
    | none =>
      match chanWrite c inInnerWasPointer fields v.value writer with
      | (w1, Except.error e) => (w1, Except.error e)
      | (w1, Except.ok _) => chanLoop c inType inInnerWasPointer fields rest w1

/-- Source: `writeFromChan`. The channel is the finite sequence of elements it
delivers before it is closed. -/
def writeFromChan (c : Coercer) (writer : SafeCSVWriter) (chan : List ChanValue) :
    SafeCSVWriter × Except Failure Unit :=
  match chan with
  | [] => (writer, Except.error (Failure.error Err.channelClosed))
  | firstValue :: rest =>
    match ensureStructOrPtr firstValue.kind with
    | some e => (writer, Except.error (Failure.error e))
    | none =>
      let inInnerWasPointer := decide (firstValue.kind = ElemKind.Ptr)
      match headerLabels firstValue.info.Fields with
      | Except.error e => (writer, Except.error e)
      | Except.ok csvHeadersLabels =>
        match writer.Write csvHeadersLabels with
        | (w1, some e) => (w1, Except.error (Failure.error e))
        | (w1, none) =>
          match chanWrite c inInnerWasPointer firstValue.info.Fields firstValue.value w1 with
          | (w2, Except.error e) => (w2, Except.error e)
          | (w2, Except.ok _) =>
            chanLoop c firstValue.kind inInnerWasPointer firstValue.info.Fields rest w2

/-! ## A coercer for text and whole numbers -/

/-- The decimal value of a run of digits, continuing from `acc`; `none` when a
character is not a digit. -/
def parseDigits : List Char → Nat → Option Nat
  | [], acc => some acc
  | ch :: rest, acc =>
    if ch.isDigit then parseDigits rest (acc * 10 + (ch.toNat - 48)) else none

/-- Modelled from the spec: decodeCell for the whole-number kind, which `types.go`
(not in src) implements; "Empty text maps to the zero value for
numeric/boolean/timestamp kinds", other text is a decimal numeral with an optional
minus sign and must fit 64 bits, and a parse failure is an error. -/
def parseInt (text : String) : Option Int :=
  match text.data with
  | [] => some 0
  | '-' :: ds =>
    match ds with
    | [] => none
    | _ =>
      match parseDigits ds 0 with
      | some n => if n ≤ 2 ^ 63 then some (-(n : Int)) else none
      | none => none
  | ds =>
    match parseDigits ds 0 with
    | some n => if n < 2 ^ 63 then some (n : Int) else none
    | none => none

/-- Modelled from the spec: encodeCell for the whole-number kind, which `types.go`
(not in src) implements: the decimal numeral, with a minus sign when negative. -/
def formatInt (i : Int) : String :=
  match i with
  | Int.ofNat n => String.mk (Nat.toDigits 10 n)
  | Int.negSucc n => String.mk ('-' :: Nat.toDigits 10 (n + 1))

/-- Modelled from the spec: `setField` and `getFieldAsString` of `types.go` (not in
src) for the text and whole-number kinds: text is stored and rendered unchanged, a
whole number is parsed with `parseInt` and rendered with `formatInt`, and in the
encode direction an "Optional kind whose value is absent encodes to empty text".
Every other case (floating point, boolean, a present or decoded optional, custom
codec, timestamp) is left to `ext`. -/
def primCoercer (ext : Coercer) : Coercer where
  setField := fun slot text =>
    match slot with
    | Value.str _ => Except.ok (Value.str text)
    | Value.int _ =>
      match parseInt text with
      | some i => Except.ok (Value.int i)
      | none => Except.error ("cannot parse " ++ text ++ " as a whole number")
    | _ => ext.setField slot text
  getFieldAsString := fun v =>
    match v with
    | Value.str s => Except.ok s
    | Value.int i => Except.ok (formatInt i)
    | Value.ptr none => Except.ok ""
    | _ => ext.getFieldAsString v

/-! ## The record types of the tests -/

/-- The descriptor of a field at position `num` of a struct that embeds nothing, with
the given aliases: the key is the first alias and the index chain is the position. -/
def plainField (num : Nat) (key : String) (aliases : List String) (omitEmpty : Bool) :
    fieldInfo :=
  { Key := key, Num := num, keys := key :: aliases, IndexChain := [num], omitEmpty := omitEmpty }

/-- The struct `Sample` of `sample_structs_test.go`: `Foo string`, `Bar int`,
`Baz string`, `Frop float64`, `Blah *int`, `SPtr *string`,
`Marshaller MarshallerStruct`, `Omit *string` with tag `Omit,omitempty`. -/
def Sample : StructType where
  isStruct := true
  info :=
    { Fields :=
        [ plainField 0 "foo" [] false, plainField 1 "BAR" [] false,
          plainField 2 "Baz" [] false, plainField 3 "Quux" [] false,
          plainField 4 "Blah" [] false, plainField 5 "SPtr" [] false,
          plainField 6 "Marshaller" [] false, plainField 7 "Omit" [] true ] }
  zero :=
    Value.struct
      [ Value.str "", Value.int 0, Value.str "", Value.float 0, Value.ptr none,
        Value.ptr none, Value.struct [Value.str "", Value.int 0], Value.ptr none ]

/-- The record of the decoding scenario of the specification:
`Foo string "foo"`, `Bar int "BAR"`, `Baz string "Baz"`. -/
def Sample3 : StructType where
  isStruct := true
  info :=
    { Fields :=
        [ plainField 0 "foo" [] false, plainField 1 "BAR" [] false,
          plainField 2 "Baz" [] false ] }
  zero := Value.struct [Value.str "", Value.int 0, Value.str ""]

/-- The struct `MultiTagSample` of `sample_structs_test.go`: `Foo string` tagged
`Baz,foo` and `Bar int` tagged `BAR`. -/
def MultiTagSample : StructType where
  isStruct := true
  info := { Fields := [ plainField 0 "Baz" ["foo"] false, plainField 1 "BAR" [] false ] }
  zero := Value.struct [Value.str "", Value.int 0]

/-- The struct `MyType` of `Test_calculateOmitEmpty`: `Foo string` tagged `foo`,
`Bar *string` tagged `bar,omitempty`, `Baz string` tagged `baz`. -/
def MyType : StructType where
  isStruct := true
  info :=
    { Fields :=
        [ plainField 0 "foo" [] false, plainField 1 "bar" [] true,
          plainField 2 "baz" [] false ] }
  zero := Value.struct [Value.str "", Value.ptr none, Value.str ""]

/-- An addressable slice of the given element type and elements, as in
`readTo(d, &samples)`. -/
def sliceOf (t : StructType) (elems : List Value) : Container :=
  { kind := Kind.Slice, canAddr := true, innerWasPointer := false, inner := t, elems := elems }

/-- An addressable array of the given element type and elements. -/
def arrayOf (t : StructType) (elems : List Value) : Container :=
  { kind := Kind.Array, canAddr := true, innerWasPointer := false, inner := t, elems := elems }

/-- A row sink that has accepted nothing yet and never fails. -/
def freshWriter : SafeCSVWriter :=
  { rows := [], quota := none, flushError := none }

/-- A coercer that rejects every value: the `ext` of `primCoercer` where no kind
other than text and whole numbers occurs. -/
def noCoercer : Coercer where
  setField := fun _ _ => Except.error "unsupported kind"
  getFieldAsString := fun _ => Except.error "unsupported kind"

/-! ## The row loop as a list of assignments -/

/-- The assignments the row loop of `readTo` performs on one row, in column order:
the field of every column that has an entry in the correspondence, with the cell of
that column. -/
def assignments (csvHeadersLabels : List (Option fieldInfo)) (csvRow : List String) :
    List (fieldInfo × String) :=
  (csvHeadersLabels.zip csvRow).filterMap (fun p => p.1.map (fun f => (f, p.2)))

/-- The calls of `setInnerField` for a list of assignments, in order, stopping at the
first that fails. -/
def applyAssignments (c : Coercer) (outInnerWasPointer : Bool) :
    List (fieldInfo × String) → Value → Except Failure Value
  | [], outInner => Except.ok outInner
  | a :: rest, outInner =>
    match setInnerField c outInner outInnerWasPointer a.1.Num a.2 with
    | Except.ok o => applyAssignments c outInnerWasPointer rest o
    | Except.error f => Except.error f

/-- The fields of the struct an element of a container denotes: the element itself,
or what it points to when the elements are pointers. -/
def structFields (wasPointer : Bool) (v : Value) : Option (List Value) :=
  match wasPointer, v with
  | false, Value.struct fs => some fs
  | true, Value.ptr (some (Value.struct fs)) => some fs
  | _, _ => none

/-- A destination that can take `n` records: a slice that is addressable (it grows)
or already has `n` elements, or an addressable array with `n` elements. -/
def sufficient (out : Container) (n : Nat) : Prop :=
  (out.kind = Kind.Slice ∧ (out.canAddr = true ∨ n ≤ out.elems.length)) ∨
    (out.kind = Kind.Array ∧ out.canAddr = true ∧ n ≤ out.elems.length)

/-- The destination after `ensureOutCapacity` for `n` data rows. -/
def grown (out : Container) (n : Nat) : Container :=
  (ensureOutCapacity out (n + 1)).1

/-- The mapped cells of a row coerce: the row loop of `readTo`, started on a new
record of the element type, sets every mapped field without error. -/
def rowCoerces (c : Coercer) (csvHeadersLabels : List (Option fieldInfo))
    (out : Container) (csvRow : List String) : Prop :=
  ∃ r, fillRow c csvHeadersLabels out.innerWasPointer 0 csvRow
    (createNewOutInner out.innerWasPointer out.inner) = Except.ok r

/-- The container with every `omitEmpty` flag of its descriptor replaced by what
`flag` gives for the field. -/
def withOmitEmpty (flag : fieldInfo → Bool) (inp : Container) : Container :=
  { inp with
    inner :=
      { inp.inner with
        info :=
          { Fields := inp.inner.info.Fields.map (fun f => { f with omitEmpty := flag f }) } } }

/-! ## A coercer for every primitive kind -/

/-- Modelled from the spec: the text form of a kind whose formatting `types.go` (not
in src) takes from the Go library: floating point ("the shortest
round-trip-faithful textual representation") and timestamp ("a fixed, documented
textual timestamp format"). The value is its bit pattern or its nanoseconds. -/
structure TextCodec where
  format : Nat → String
  parse : String → Option Nat

/-- Modelled from the spec: what the spec requires of such a text form: the text of a
value is never empty, and "re-decoding reproduces the original value exactly". -/
def TextCodec.faithful (k : TextCodec) : Prop :=
  ∀ x : Nat, k.format x ≠ "" ∧ k.parse (k.format x) = some x

/-- Modelled from the spec: decodeCell for the boolean kind, which `types.go` (not in
src) implements: "Empty text maps to the zero value", the literals Go accepts for a
boolean are read, and anything else is a parse failure. -/
def parseBool (text : String) : Option Bool :=
  if text = "" then some false
  else if text ∈ ["1", "t", "T", "TRUE", "true", "True"] then some true
  else if text ∈ ["0", "f", "F", "FALSE", "false", "False"] then some false
  else none

/-- Modelled from the spec: encodeCell for the boolean kind, which `types.go` (not in
src) implements. -/
def formatBool (b : Bool) : String :=
  if b then "true" else "false"

/-- Modelled from the spec: `setField` and `getFieldAsString` of `types.go` (not in
src) for the boolean, floating-point and timestamp kinds: empty text decodes to the
zero value, other text is parsed, a parse failure is an error; every other kind has
no coercion rule here. -/
def kindCoercer (float time : TextCodec) : Coercer where
  setField := fun slot text =>
    match slot with
    | Value.bool _ =>
      match parseBool text with
      | some b => Except.ok (Value.bool b)
      | none => Except.error ("cannot parse " ++ text ++ " as a boolean")
    | Value.float _ =>
      if text = "" then Except.ok (Value.float 0)
      else
        match float.parse text with
        | some x => Except.ok (Value.float x)
        | none => Except.error ("cannot parse " ++ text ++ " as a floating-point number")
    | Value.time _ =>
      if text = "" then Except.ok (Value.time 0)
      else
        match time.parse text with
        | some x => Except.ok (Value.time x)
        | none => Except.error ("cannot parse " ++ text ++ " as a timestamp")
    | _ => Except.error "unsupported field kind"
  getFieldAsString := fun v =>
    match v with
    | Value.bool b => Except.ok (formatBool b)
    | Value.float x => Except.ok (float.format x)
    | Value.time x => Except.ok (time.format x)
    | _ => Except.error "unsupported field kind"

/-- Modelled from the spec: `setField` and `getFieldAsString` of `types.go` (not in
src) for all primitive kinds: text and whole numbers as in `primCoercer`, boolean,
floating point and timestamp as in `kindCoercer`. -/
def specCoercer (float time : TextCodec) : Coercer :=
  primCoercer (kindCoercer float time)

/-- A field of a primitive kind: the value `x` of the field has the kind of the zero
value `slot` of the field, which is text, a 64-bit whole number, a boolean, a
floating-point number or a timestamp. -/
def primitiveField (slot x : Value) : Prop :=
  match slot, x with
  | Value.str _, Value.str _ => True
  | Value.int _, Value.int i => -(2 : Int) ^ 63 ≤ i ∧ i < (2 : Int) ^ 63
  | Value.bool _, Value.bool _ => True
  | Value.float _, Value.float _ => True
  | Value.time _, Value.time _ => True
  | _, _ => False

/-- A text form that writes the number as a decimal numeral: an instance of a
faithful text form. -/
def decimalCodec : TextCodec where
  format := fun x => String.mk (Nat.toDigits 10 x)
  parse := fun text => parseDigits text.data 0

/-- A struct with one field of each primitive kind: `Name string`, `Count int`,
`Done bool`, `Ratio float64`, `At time.Time`, tagged `name`, `count`, `done`,
`ratio`, `at`. -/
def Primitives : StructType where
  isStruct := true
  info :=
    { Fields :=
        [ plainField 0 "name" [] false, plainField 1 "count" [] false,
          plainField 2 "done" [] false, plainField 3 "ratio" [] false,
          plainField 4 "at" [] false ] }
  zero :=
    Value.struct
      [ Value.str "", Value.int 0, Value.bool false, Value.float 0, Value.time 0 ]

/-! # Theorems -/

/-! ## Header resolution -/

/-- The field `getCSVFieldPosition` returns is the first one with the key. -/
theorem getCSVFieldPosition_some (key : String) (info : structInfo) (f : fieldInfo) :
    getCSVFieldPosition key info = some f ↔
      ∃ pre post, info.Fields = pre ++ f :: post ∧ f.Key = key ∧ ∀ g ∈ pre, g.Key ≠ key := by
  unfold getCSVFieldPosition
  rw [List.find?_eq_some]
  constructor
  · rintro ⟨hk, pre, post, hsplit, hpre⟩
    refine ⟨pre, post, hsplit, by simpa using hk, ?_⟩
    intro g hg
    simpa using hpre g hg
  · rintro ⟨pre, post, hsplit, hk, hpre⟩
    refine ⟨by simpa using hk, pre, post, hsplit, ?_⟩
    intro g hg
    simpa using hpre g hg

/-- The nil result of `getCSVFieldPosition` means that no field has the key. -/
theorem getCSVFieldPosition_none (key : String) (info : structInfo) :
    getCSVFieldPosition key info = none ↔ ∀ g ∈ info.Fields, g.Key ≠ key := by
  unfold getCSVFieldPosition
  rw [List.find?_eq_none]
  simp

/-- Entry `i` of the correspondence is the lookup of header `i`. -/
theorem csvHeadersLabels_getElem? (headers : List String) (info : structInfo) (i : Nat) :
    (csvHeadersLabels headers info)[i]? =
      (headers[i]?).map (fun h => getCSVFieldPosition h info) := by
  simp [csvHeadersLabels]

/-- C3: the correspondence `readTo` builds sends column `i` to the first field, in
descriptor order, whose `Key` equals `headers[i]` exactly, and has no entry for column
`i` when no field has that key; `getCSVFieldPosition` returns that first field, and nil
when there is none; a cell under a header without entry is passed over by the row
loop, with no coercion and no error. -/
theorem header_resolution (headers : List String) (info : structInfo) (key : String) :
    (∀ (i : Nat) (f : fieldInfo), (csvHeadersLabels headers info)[i]?.join = some f ↔
        ∃ h, headers[i]? = some h ∧ ∃ pre post, info.Fields = pre ++ f :: post ∧
          f.Key = h ∧ ∀ g ∈ pre, g.Key ≠ h) ∧
    (∀ (i : Nat) (h : String), headers[i]? = some h →
        ((csvHeadersLabels headers info)[i]?.join = none ↔ ∀ g ∈ info.Fields, g.Key ≠ h)) ∧
    (∀ f, getCSVFieldPosition key info = some f ↔
        ∃ pre post, info.Fields = pre ++ f :: post ∧ f.Key = key ∧ ∀ g ∈ pre, g.Key ≠ key) ∧
    (getCSVFieldPosition key info = none ↔ ∀ g ∈ info.Fields, g.Key ≠ key) ∧
    (∀ (c : Coercer) (wp : Bool) (j : Nat) (cell : String) (rest : List String) (o : Value),
        (csvHeadersLabels headers info)[j]?.join = none →
          fillRow c (csvHeadersLabels headers info) wp j (cell :: rest) o =
            fillRow c (csvHeadersLabels headers info) wp (j + 1) rest o) := by
  refine ⟨?_, ?_, getCSVFieldPosition_some key info, getCSVFieldPosition_none key info, ?_⟩
  · intro i f
    rw [csvHeadersLabels_getElem?]
    cases hh : headers[i]? with
    | none => simp
    | some h => simp [getCSVFieldPosition_some]
  · intro i h hh
    rw [csvHeadersLabels_getElem?, hh]
    simp [getCSVFieldPosition_none]
  · intro c wp j cell rest o hnone
    rw [fillRow, hnone]

/-- C4 (counterexample): both fields of `MultiTagSample` have one of their names
among the headers `foo`, `BAR` (`foo` is the second alias of the field tagged
`Baz,foo`), and `maybeMissingStructFields` still returns the unmatched-tag error for
`Baz`: it compares the `Key` of a field only. -/
theorem maybeMissingStructFields_alias_counterexample :
    (∀ f ∈ MultiTagSample.info.Fields, ∃ k ∈ f.keys, k ∈ ["foo", "BAR"]) ∧
      maybeMissingStructFields MultiTagSample.info.Fields ["foo", "BAR"] =
        some (Err.unmatchedTag "Baz") := by
  decide

/-- C4 (amended): `maybeMissingStructFields` returns an error exactly when the
descriptor list is not empty and some declared field has its `Key` absent from the
headers; the further aliases of a field are not consulted, the result being the same
whatever the alias lists are; an empty descriptor list gives no error, and appending
further headers to a header list that gave no error gives no error. -/
theorem maybeMissingStructFields_iff (structInfo : List fieldInfo) (headers : List String) :
    ((maybeMissingStructFields structInfo headers).isSome ↔
        structInfo ≠ [] ∧ ∃ f ∈ structInfo, f.Key ∉ headers) ∧
    maybeMissingStructFields [] headers = none ∧
    (∀ extra : List String, maybeMissingStructFields structInfo headers = none →
        maybeMissingStructFields structInfo (headers ++ extra) = none) ∧
    (∀ aliases : fieldInfo → List String,
      maybeMissingStructFields (structInfo.map (fun f => { f with keys := aliases f }))
        headers = maybeMissingStructFields structInfo headers) := by
  refine ⟨?_, by simp [maybeMissingStructFields], ?_, ?_⟩
  rotate_left 2
  · intro aliases
    unfold maybeMissingStructFields
    rw [List.length_map, List.find?_map]
    have hcomp : ((fun info : fieldInfo => !(headers.contains info.Key)) ∘
        fun f => { f with keys := aliases f }) =
        (fun info : fieldInfo => !(headers.contains info.Key)) := rfl
    rw [hcomp]
    split
    · rfl
    · cases structInfo.find? (fun info => !(headers.contains info.Key)) <;> rfl
  · unfold maybeMissingStructFields
    by_cases hlen : structInfo.length = 0
    · simp [hlen, List.length_eq_zero.mp hlen]
    · rw [if_neg hlen]
      have hne : structInfo ≠ [] := fun h => hlen (by simp [h])
      cases hfind : structInfo.find? (fun info => !(headers.contains info.Key)) with
      | none =>
        rw [List.find?_eq_none] at hfind
        simp only [Option.isSome_none, Bool.false_eq_true, false_iff, not_and, not_exists]
        intro _ f hf
        have := hfind f hf
        simpa using this
      | some g =>
        rw [List.find?_eq_some] at hfind
        obtain ⟨hg, pre, post, hsplit, _⟩ := hfind
        simp only [Option.isSome_some, true_iff]
        refine ⟨hne, g, ?_, by simpa using hg⟩
        rw [hsplit]
        simp
  · intro extra hnone
    unfold maybeMissingStructFields at hnone ⊢
    by_cases hlen : structInfo.length = 0
    · simp [hlen]
    · rw [if_neg hlen] at hnone ⊢
      cases hfind : structInfo.find? (fun info => !(headers.contains info.Key)) with
      | some g => rw [hfind] at hnone; simp at hnone
      | none =>
        rw [List.find?_eq_none] at hfind
        have h2 : structInfo.find? (fun info => !((headers ++ extra).contains info.Key)) = none := by
          rw [List.find?_eq_none]
          intro x hx
          have := hfind x hx
          simp only [List.contains_eq_any_beq, List.any_append, Bool.not_eq_true,
            Bool.not_eq_eq_eq_not, Bool.not_true, Bool.not_false, Bool.or_eq_true,
            Bool.not_eq_false] at this ⊢
          exact Or.inl this
        rw [h2]

/-! ## The row loop of `readTo` -/

/-- The row loop performs the assignments of the row, in order. -/
theorem fillRow_eq_applyAssignments (c : Coercer) (labels : List (Option fieldInfo)) (wp : Bool) :
    ∀ (row : List String) (j : Nat) (o : Value),
      fillRow c labels wp j row o =
        applyAssignments c wp (assignments (labels.drop j) row) o := by
  intro row
  induction row with
  | nil => intro j o; simp [fillRow, assignments, applyAssignments]
  | cons cell rest ih =>
    intro j o
    rw [fillRow]
    cases hd : labels.drop j with
    | nil =>
      have hj : labels[j]? = none := by
        have : labels.length ≤ j := by simpa using hd
        simp [this]
      have hd1 : labels.drop (j + 1) = [] := by
        have : labels.length ≤ j := by simpa using hd
        simp; omega
      have hjoin : (none : Option (Option fieldInfo)).join = none := rfl
      rw [hj, hjoin]
      simp only []
      rw [ih, hd1]
      simp [assignments]
    | cons l tl =>
      have hj : labels[j]? = some l := by
        have := congrArg List.head? hd
        simpa [List.head?_drop] using this
      have hd1 : labels.drop (j + 1) = tl := by
        have := congrArg List.tail hd
        simpa [List.tail_drop] using this
      rw [hj]
      cases l with
      | none =>
        have hjoin : (some none : Option (Option fieldInfo)).join = none := rfl
        have ha : assignments (none :: tl) (cell :: rest) = assignments tl rest := by
          simp [assignments]
        rw [hjoin, ha]
        simp only []
        rw [ih, hd1]
      | some f =>
        have hjoin : (some (some f) : Option (Option fieldInfo)).join = some f := rfl
        have ha : assignments (some f :: tl) (cell :: rest) = (f, cell) :: assignments tl rest := by
          simp [assignments]
        rw [hjoin, ha, applyAssignments]
        dsimp only
        cases hs : setInnerField c o wp f.Num cell with
        | error e => rfl
        | ok o1 =>
          dsimp only
          rw [ih, hd1]

/-- On a record that is a pointer to a struct, `setInnerField` sets the field of the
struct pointed to. -/
theorem setInnerField_createNew (c : Coercer) (wp : Bool) (s : Value) (n : Nat) (cell : String) :
    setInnerField c (if wp then Value.ptr (some s) else s) wp n cell =
      match setStructField c s n cell with
      | Except.ok s1 => Except.ok (if wp then Value.ptr (some s1) else s1)
      | Except.error f => Except.error f := by
  cases wp with
  | false =>
    simp only [setInnerField, Bool.false_eq_true, if_false]
    cases setStructField c s n cell <;> rfl
  | true => simp [setInnerField]

/-- Assignments on a record that may be a pointer are the assignments on the struct. -/
theorem applyAssignments_wrap (c : Coercer) (wp : Bool) :
    ∀ (as : List (fieldInfo × String)) (s : Value),
      applyAssignments c wp as (if wp then Value.ptr (some s) else s) =
        match applyAssignments c false as s with
        | Except.ok s1 => Except.ok (if wp then Value.ptr (some s1) else s1)
        | Except.error f => Except.error f := by
  intro as
  induction as with
  | nil => intro s; simp [applyAssignments]
  | cons a rest ih =>
    intro s
    rw [applyAssignments, setInnerField_createNew, applyAssignments]
    have h0 := setInnerField_createNew c false s a.1.Num a.2
    simp only [Bool.false_eq_true, if_false] at h0
    rw [h0]
    cases hs : setStructField c s a.1.Num a.2 with
    | error e => rfl
    | ok s1 =>
      dsimp only
      exact ih s1

/-- Distinct positions: the assignments succeed when each cell coerces into the slot
of its field, every assigned field then holds the coerced value, and every other
position is unchanged. -/
theorem applyAssignments_struct (c : Coercer) :
    ∀ (as : List (fieldInfo × String)) (zs : List Value),
      (as.map (fun a => a.1.Num)).Nodup →
      (∀ a ∈ as, ∃ slot v, zs[a.1.Num]? = some slot ∧ c.setField slot a.2 = Except.ok v) →
      ∃ rs, applyAssignments c false as (Value.struct zs) = Except.ok (Value.struct rs) ∧
        rs.length = zs.length ∧
        (∀ a ∈ as, ∃ slot v, zs[a.1.Num]? = some slot ∧ c.setField slot a.2 = Except.ok v ∧
          rs[a.1.Num]? = some v) ∧
        (∀ p, p ∉ as.map (fun a => a.1.Num) → rs[p]? = zs[p]?) := by
  intro as
  induction as with
  | nil =>
    intro zs _ _
    exact ⟨zs, rfl, rfl, by simp, by simp⟩
  | cons a rest ih =>
    intro zs hnd hco
    obtain ⟨slot, v, hslot, hset⟩ := hco a (List.mem_cons_self _ _)
    have hnd1 : (rest.map (fun a => a.1.Num)).Nodup := (List.nodup_cons.mp (by simpa using hnd)).2
    have hnotin : a.1.Num ∉ rest.map (fun a => a.1.Num) :=
      (List.nodup_cons.mp (by simpa using hnd)).1
    have hlt : a.1.Num < zs.length := by
      rcases Nat.lt_or_ge a.1.Num zs.length with h | h
      · exact h
      · rw [List.getElem?_eq_none h] at hslot; cases hslot
    have hne : ∀ b ∈ rest, b.1.Num ≠ a.1.Num := by
      intro b hb heq
      exact hnotin (List.mem_map.mpr ⟨b, hb, heq⟩)
    have hco1 : ∀ b ∈ rest, ∃ sl w, (zs.set a.1.Num v)[b.1.Num]? = some sl ∧
        c.setField sl b.2 = Except.ok w := by
      intro b hb
      obtain ⟨sl, w, h1, h2⟩ := hco b (List.mem_cons_of_mem _ hb)
      refine ⟨sl, w, ?_, h2⟩
      rw [List.getElem?_set_ne (Ne.symm (hne b hb))]
      exact h1
    obtain ⟨rs, hrs, hlen, hfields, hother⟩ := ih (zs.set a.1.Num v) hnd1 hco1
    refine ⟨rs, ?_, ?_, ?_, ?_⟩
    · rw [applyAssignments]
      simp only [setInnerField, Bool.false_eq_true, if_false, setStructField, hslot, hset]
      exact hrs
    · simpa using hlen
    · intro b hb
      rcases List.mem_cons.mp hb with rfl | hb
      · refine ⟨slot, v, hslot, hset, ?_⟩
        rw [hother _ hnotin]
        simp [hlt]
      · obtain ⟨sl, w, h1, h2, h3⟩ := hfields b hb
        refine ⟨sl, w, ?_, h2, h3⟩
        rw [List.getElem?_set_ne (Ne.symm (hne b hb))] at h1
        exact h1
    · intro p hp
      have hp1 : p ∉ rest.map (fun a => a.1.Num) := fun h => hp (by simp at h ⊢; exact Or.inr h)
      have hp2 : a.1.Num ≠ p := fun h => hp (by simp [h])
      rw [hother p hp1, List.getElem?_set_ne hp2]

/-- The row loop never changes the number of elements of the destination. -/
theorem fillBody_length (c : Coercer) (labels : List (Option fieldInfo)) :
    ∀ (body : List (List String)) (i : Nat) (out : Container),
      (fillBody c labels i body out).1.elems.length = out.elems.length := by
  intro body
  induction body with
  | nil => intro i out; rfl
  | cons row rest ih =>
    intro i out
    rw [fillBody]
    cases fillRow c labels out.innerWasPointer 0 row
        (createNewOutInner out.innerWasPointer out.inner) with
    | error f => rfl
    | ok outInner =>
      dsimp only
      unfold setIndex
      by_cases hi : i < out.elems.length
      · rw [if_pos hi]
        by_cases ha : out.kind = Kind.Array ∧ out.canAddr = false
        · rw [if_pos ha]
        · rw [if_neg ha]
          dsimp only
          rw [ih]
          simp
      · rw [if_neg hi]

/-- When every row decodes, the row loop stores the decoded records at the positions
of their rows and returns nil. -/
theorem fillBody_ok (c : Coercer) (labels : List (Option fieldInfo)) :
    ∀ (body : List (List String)) (results : List Value) (i : Nat) (out : Container),
      List.Forall₂ (fun row r => fillRow c labels out.innerWasPointer 0 row
        (createNewOutInner out.innerWasPointer out.inner) = Except.ok r) body results →
      i + body.length ≤ out.elems.length →
      ¬ (out.kind = Kind.Array ∧ out.canAddr = false) →
      fillBody c labels i body out =
        ({ out with elems := out.elems.take i ++ results ++ out.elems.drop (i + body.length) },
          Except.ok ()) := by
  intro body
  induction body with
  | nil =>
    intro results i out h _ _
    cases h
    simp [fillBody]
  | cons row rest ih =>
    intro results i out h hlen hkind
    cases h with
    | cons hrow hrest =>
      rename_i r rs
      have hi : i < out.elems.length := by simp at hlen; omega
      rw [fillBody, hrow]
      dsimp only
      unfold setIndex
      rw [if_pos hi, if_neg hkind]
      dsimp only
      have hstep := ih rs (i + 1) { out with elems := out.elems.set i r } hrest
        (by simp at hlen ⊢; omega) hkind
      rw [hstep]
      have hl : (out.elems.set i r).take (i + 1) ++ rs ++ (out.elems.set i r).drop (i + 1 + rest.length)
          = out.elems.take i ++ r :: rs ++ out.elems.drop (i + (row :: rest).length) := by
        rw [List.set_eq_take_append_cons_drop]
        rw [if_pos hi]
        have h1 : (List.take i out.elems).length = i := by
          simp; omega
        rw [List.take_append_eq_append_take, List.drop_append_eq_append_drop]
        simp [h1, List.take_take]
        have h2 : i + 1 + rest.length - i = (rest.length) + 1 := by omega
        rw [h2, List.drop_succ_cons, List.drop_drop]
        have h3 : List.drop (i + 1 + rest.length) (List.take i out.elems) = [] := by
          apply List.drop_of_length_le
          simp; omega
        rw [h3]
        simp only [List.nil_append]
        congr 1
        omega
      simp only [hl]

/-! ## Capacity and empty input -/

/-- For a sufficient destination `ensureOutCapacity` returns nil, keeps everything but
the elements, and leaves room for the data rows. -/
theorem ensureOutCapacity_sufficient (out : Container) (n : Nat) (h : sufficient out n) :
    ensureOutCapacity out (n + 1) = (grown out n, none) ∧
      (grown out n).kind = out.kind ∧ (grown out n).canAddr = out.canAddr ∧
      (grown out n).innerWasPointer = out.innerWasPointer ∧ (grown out n).inner = out.inner ∧
      n ≤ (grown out n).elems.length ∧
      (grown out n).elems.drop n = out.elems.drop n := by
  have hcast : ∀ l : Nat, ((l : Int) < ((n + 1 : Nat) : Int) - 1) ↔ l < n := by
    intro l; omega
  by_cases hgrow : out.kind = Kind.Slice ∧ out.canAddr = true ∧ out.elems.length < n
  · obtain ⟨hk, hc, hlt⟩ := hgrow
    have hE : ensureOutCapacity out (n + 1) =
        ({ out with elems := List.replicate n (zeroElem out) }, none) := by
      unfold ensureOutCapacity
      rw [hk]
      simp [hc, hcast, hlt]
    have hd : List.drop n out.elems = [] := List.drop_of_length_le (by omega)
    unfold grown
    rw [hE]
    simp [hd]
  · have hE : ensureOutCapacity out (n + 1) = (out, none) := by
      unfold ensureOutCapacity
      rcases h with ⟨hk, hc | hl⟩ | ⟨hk, hc, hl⟩
      · have hlt : ¬ out.elems.length < n := fun hlt => hgrow ⟨hk, hc, hlt⟩
        rw [hk]
        simp [hc, hcast, hlt]
      · have hlt : ¬ out.elems.length < n := by omega
        rw [hk]
        simp [hcast, hlt]
      · have hlt : ¬ out.elems.length < n := by omega
        rw [hk]
        simp [hcast, hlt]
    have hl : n ≤ out.elems.length := by
      rcases h with ⟨hk, hc | hl⟩ | ⟨hk, hc, hl⟩
      · by_contra hlt
        exact hgrow ⟨hk, hc, by omega⟩
      · exact hl
      · exact hl
    unfold grown
    rw [hE]
    simp [hl]

/-- With a valid and sufficient destination, a struct type that has fields and a
header row, `readTo` comes down to the row loop on the grown destination, unless the
strict setting rejects an unmatched field. -/
theorem readTo_eq_fillBody (c : Coercer) (strict : Bool) (headers : List String)
    (body : List (List String)) (out : Container)
    (hsuff : sufficient out body.length) (hstruct : out.inner.isStruct = true)
    (hfields : out.inner.info.Fields ≠ [])
    (hstrict : strict = true → maybeMissingStructFields out.inner.info.Fields headers = none) :
    readTo c strict (Except.ok (headers :: body)) out =
      fillBody c (csvHeadersLabels headers out.inner.info) 0 body (grown out body.length) := by
  obtain ⟨hcap, _, _, _, _, _, _⟩ := ensureOutCapacity_sufficient out body.length hsuff
  have hty : ensureOutType out.kind = none := by
    rcases hsuff with ⟨hk, _⟩ | ⟨hk, _⟩ <;> rw [hk] <;> rfl
  have hin : ensureOutInnerType out.inner = none := by simp [ensureOutInnerType, hstruct]
  have hlen : ¬ out.inner.info.Fields.length = 0 := by
    intro h; exact hfields (List.length_eq_zero.mp h)
  unfold readTo
  rw [hty, hin]
  dsimp only
  rw [List.length_cons, hcap]
  dsimp only
  rw [if_neg hlen]
  cases hm : maybeMissingStructFields out.inner.info.Fields headers with
  | none => rfl
  | some e =>
    cases strict with
    | false => rfl
    | true => rw [hstrict rfl] at hm; cases hm

/-- C7 (failing input): with no row at all, not even a header row, `readTo` on a
valid destination whose record type has a mapped field does not return an error: the
capacity check passes (`len(csvRows)-1` is `-1`) and `csvRows[0]` panics. -/
theorem readTo_empty_input_panics (c : Coercer) (strict : Bool) (out : Container)
    (hkind : out.kind = Kind.Slice ∨ out.kind = Kind.Array)
    (hstruct : out.inner.isStruct = true) (hfields : out.inner.info.Fields ≠ []) :
    readTo c strict (Except.ok []) out =
      (out, Except.error (Failure.panic "index out of range [0] with length 0")) := by
  have hty : ensureOutType out.kind = none := by
    rcases hkind with hk | hk <;> rw [hk] <;> rfl
  have hin : ensureOutInnerType out.inner = none := by simp [ensureOutInnerType, hstruct]
  have hlen : ¬ out.inner.info.Fields.length = 0 := by
    intro h; exact hfields (List.length_eq_zero.mp h)
  have hcap : ensureOutCapacity out 0 = (out, none) := by
    have hneg : ¬ ((out.elems.length : Int) < -1) := by omega
    have hge : (-1 : Int) ≤ (out.elems.length : Int) := by omega
    unfold ensureOutCapacity
    rcases hkind with hk | hk <;> rw [hk] <;> simp [hneg, hge]
  unfold readTo
  rw [hty, hin]
  dsimp only
  rw [List.length_nil, hcap]
  dsimp only
  rw [if_neg hlen]

/-- The empty input on the three-field record of the decoding scenario and an empty
addressable slice. -/
theorem readTo_empty_input_panics_witness :
    readTo (primCoercer noCoercer) true (Except.ok []) (sliceOf Sample3 []) =
      (sliceOf Sample3 [], Except.error (Failure.panic "index out of range [0] with length 0")) :=
  readTo_empty_input_panics (primCoercer noCoercer) true (sliceOf Sample3 [])
    (Or.inl rfl) rfl (by decide)

/-- C6 (counterexample): one data row decoded into an addressable slice that already
has three elements succeeds and leaves the slice with three elements, not one. -/
theorem capacity_law_counterexample :
    (readTo (primCoercer noCoercer) false (Except.ok [["foo"], ["a"]])
        (sliceOf Sample3 [Sample3.zero, Sample3.zero, Sample3.zero])).2 = Except.ok () ∧
      (readTo (primCoercer noCoercer) false (Except.ok [["foo"], ["a"]])
        (sliceOf Sample3 [Sample3.zero, Sample3.zero, Sample3.zero])).1.elems.length = 3 ∧
      ¬ ((readTo (primCoercer noCoercer) false (Except.ok [["foo"], ["a"]])
        (sliceOf Sample3 [Sample3.zero, Sample3.zero, Sample3.zero])).1.elems.length = 1) := by
  refine ⟨rfl, rfl, ?_⟩
  decide

/-- C6 (amended): decoding `N` data rows into an array of structs shorter than `N`
returns the array capacity error and leaves the array as it was; decoding them into
an addressable slice of structs of length `L` leaves the slice with `max L N`
elements, that is with exactly `N` when `L ≤ N`, whatever the call returns. -/
theorem capacity_law (c : Coercer) (strict : Bool) (csvRows : List (List String))
    (out : Container) (N : Nat) (hrows : csvRows.length = N + 1)
    (hstruct : out.inner.isStruct = true) :
    (out.kind = Kind.Array → out.elems.length < N →
        readTo c strict (Except.ok csvRows) out =
          (out, Except.error (Failure.error (Err.arrayCapacity N)))) ∧
      (out.kind = Kind.Slice → out.canAddr = true →
        (readTo c strict (Except.ok csvRows) out).1.elems.length = max out.elems.length N ∧
          (out.elems.length ≤ N →
            (readTo c strict (Except.ok csvRows) out).1.elems.length = N)) := by
  have hin : ensureOutInnerType out.inner = none := by simp [ensureOutInnerType, hstruct]
  have hcast : ∀ l : Nat, ((l : Int) < ((N + 1 : Nat) : Int) - 1) ↔ l < N := by
    intro l; omega
  constructor
  · intro hk hlt
    have hcap : ensureOutCapacity out (N + 1) = (out, some (Err.arrayCapacity N)) := by
      unfold ensureOutCapacity
      rw [hk]
      simp [hcast, hlt]
    unfold readTo
    rw [hk, hin]
    dsimp only [ensureOutType]
    rw [hrows, hcap]
  · intro hk hc
    have hmain : (readTo c strict (Except.ok csvRows) out).1.elems.length =
        max out.elems.length N := by
      have hsuff : sufficient out N := Or.inl ⟨hk, Or.inl hc⟩
      obtain ⟨hcap, _, _, _, _, hge, hdrop⟩ := ensureOutCapacity_sufficient out N hsuff
      have hglen : (grown out N).elems.length = max out.elems.length N := by
        have h1 := congrArg List.length hdrop
        simp only [List.length_drop] at h1
        by_cases hlt : out.elems.length < N
        · have hE : ensureOutCapacity out (N + 1) =
              ({ out with elems := List.replicate N (zeroElem out) }, none) := by
            unfold ensureOutCapacity
            rw [hk]
            simp [hc, hcast, hlt]
          unfold grown
          rw [hE]
          simp
          omega
        · omega
      unfold readTo
      rw [hk, hin]
      dsimp only [ensureOutType]
      rw [hrows, hcap]
      dsimp only
      split
      · exact hglen
      · cases csvRows with
        | nil => simp at hrows
        | cons headers body =>
          dsimp only
          split
          · exact hglen
          · rw [fillBody_length]
            exact hglen
    refine ⟨hmain, ?_⟩
    intro hle
    rw [hmain]
    omega

/-- Two data rows: an array of one element is too small, an empty addressable slice
ends with two elements. -/
theorem capacity_law_witness :
    (readTo (primCoercer noCoercer) true (Except.ok [["foo"], ["a"], ["b"]])
        (arrayOf Sample3 [Sample3.zero]) =
          (arrayOf Sample3 [Sample3.zero],
            Except.error (Failure.error (Err.arrayCapacity (2 : Nat))))) ∧
      ((readTo (primCoercer noCoercer) true (Except.ok [["foo"], ["a"], ["b"]])
        (sliceOf Sample3 [])).1.elems.length = max (sliceOf Sample3 []).elems.length 2 ∧
        ((sliceOf Sample3 []).elems.length ≤ 2 →
          (readTo (primCoercer noCoercer) true (Except.ok [["foo"], ["a"], ["b"]])
            (sliceOf Sample3 [])).1.elems.length = 2)) :=
  ⟨(capacity_law (primCoercer noCoercer) true [["foo"], ["a"], ["b"]]
      (arrayOf Sample3 [Sample3.zero]) 2 rfl rfl).1 rfl (by decide),
    (capacity_law (primCoercer noCoercer) true [["foo"], ["a"], ["b"]]
      (sliceOf Sample3 []) 2 rfl rfl).2 rfl rfl⟩

/-! ## Decoding rows into records -/

/-- An assignment of a row is a column that has an entry in the correspondence and a
cell in the row. -/
theorem mem_assignments (labels : List (Option fieldInfo)) (row : List String)
    (a : fieldInfo × String) :
    a ∈ assignments labels row ↔ ∃ j : Nat, labels[j]?.join = some a.1 ∧ row[j]? = some a.2 := by
  unfold assignments
  rw [List.mem_filterMap]
  constructor
  · rintro ⟨⟨l, cell⟩, hmem, hmap⟩
    obtain ⟨j, hj⟩ := List.mem_iff_getElem?.mp hmem
    rw [List.getElem?_zip_eq_some] at hj
    cases l with
    | none => simp at hmap
    | some f =>
      simp only [Option.map_some', Option.some.injEq] at hmap
      subst hmap
      exact ⟨j, by rw [hj.1]; rfl, hj.2⟩
  · rintro ⟨j, hl, hr⟩
    cases hlj : labels[j]? with
    | none => rw [hlj] at hl; cases hl
    | some l =>
      rw [hlj] at hl
      cases l with
      | none => cases hl
      | some f =>
        have hf : f = a.1 := by
          have : (some (some f) : Option (Option fieldInfo)).join = some f := rfl
          rw [this] at hl
          exact Option.some.inj hl
        refine ⟨(some f, a.2), ?_, ?_⟩
        · apply List.mem_iff_getElem?.mpr
          exact ⟨j, List.getElem?_zip_eq_some.mpr ⟨hlj, hr⟩⟩
        · simp [hf]

/-- The positions a row assigns are among those the correspondence names, in order. -/
theorem assignments_nums_sublist :
    ∀ (labels : List (Option fieldInfo)) (row : List String),
      ((assignments labels row).map (fun a => a.1.Num)).Sublist
        ((labels.filterMap id).map (fun f => f.Num)) := by
  intro labels
  induction labels with
  | nil => intro row; simp [assignments]
  | cons l tl ih =>
    intro row
    cases row with
    | nil => simp [assignments]
    | cons cell rest =>
      cases l with
      | none =>
        have : assignments (none :: tl) (cell :: rest) = assignments tl rest := by
          simp [assignments]
        rw [this]
        simpa using ih rest
      | some f =>
        have : assignments (some f :: tl) (cell :: rest) = (f, cell) :: assignments tl rest := by
          simp [assignments]
        rw [this]
        simp only [List.map_cons, List.filterMap_cons, id_eq]
        exact List.Sublist.cons₂ _ (ih rest)

/-- Every field the correspondence names is a field of the descriptor with the key
of its column. -/
theorem csvHeadersLabels_mem (headers : List String) (info : structInfo) (j : Nat)
    (f : fieldInfo) (h : (csvHeadersLabels headers info)[j]?.join = some f) :
    f ∈ info.Fields ∧ headers[j]? = some f.Key := by
  rw [csvHeadersLabels_getElem?] at h
  cases hh : headers[j]? with
  | none => rw [hh] at h; cases h
  | some k =>
    rw [hh] at h
    have h1 : getCSVFieldPosition k info = some f := h
    obtain ⟨pre, post, hsplit, hkey, _⟩ := (getCSVFieldPosition_some k info f).mp h1
    refine ⟨?_, by rw [hkey]⟩
    rw [hsplit]
    simp

/-- With pairwise distinct headers and pairwise distinct field positions, no two
columns of the correspondence name the same position. -/
theorem csvHeadersLabels_nums_nodup (headers : List String) (info : structInfo)
    (hhead : headers.Nodup) (hnum : (info.Fields.map (fun f => f.Num)).Nodup) :
    (((csvHeadersLabels headers info).filterMap id).map (fun f => f.Num)).Nodup := by
  have hL : (csvHeadersLabels headers info).filterMap id =
      headers.filterMap (fun h => getCSVFieldPosition h info) := by
    unfold csvHeadersLabels
    rw [List.filterMap_map]
    rfl
  rw [hL]
  apply List.Nodup.map_on
  · intro x hx y hy hxy
    obtain ⟨kx, _, hkx⟩ := List.mem_filterMap.mp hx
    obtain ⟨ky, _, hky⟩ := List.mem_filterMap.mp hy
    obtain ⟨px, qx, hsx, _, _⟩ := (getCSVFieldPosition_some kx info x).mp hkx
    obtain ⟨py, qy, hsy, _, _⟩ := (getCSVFieldPosition_some ky info y).mp hky
    have hxm : x ∈ info.Fields := by rw [hsx]; simp
    have hym : y ∈ info.Fields := by rw [hsy]; simp
    exact List.inj_on_of_nodup_map hnum hxm hym hxy
  · apply List.Nodup.filterMap _ hhead
    intro a a' b hb hb'
    have h1 := ((getCSVFieldPosition_some a info b).mp (by simpa using hb)).choose_spec.choose_spec.2.1
    have h2 := ((getCSVFieldPosition_some a' info b).mp (by simpa using hb')).choose_spec.choose_spec.2.1
    rw [← h1, ← h2]

/-- Assignments that succeed leave a struct with the same number of fields, and leave
every position they do not name as it was. -/
theorem applyAssignments_untouched (c : Coercer) :
    ∀ (as : List (fieldInfo × String)) (zs : List Value) (r : Value),
      applyAssignments c false as (Value.struct zs) = Except.ok r →
      ∃ rs, r = Value.struct rs ∧ rs.length = zs.length ∧
        ∀ p, p ∉ as.map (fun a => a.1.Num) → rs[p]? = zs[p]? := by
  intro as
  induction as with
  | nil =>
    intro zs r h
    simp only [applyAssignments, Except.ok.injEq] at h
    exact ⟨zs, h.symm, rfl, fun _ _ => rfl⟩
  | cons a rest ih =>
    intro zs r h
    rw [applyAssignments] at h
    simp only [setInnerField, Bool.false_eq_true, if_false, setStructField] at h
    cases hslot : zs[a.1.Num]? with
    | none => rw [hslot] at h; simp at h
    | some slot =>
      rw [hslot] at h
      dsimp only at h
      cases hset : c.setField slot a.2 with
      | error m => rw [hset] at h; simp at h
      | ok v =>
        rw [hset] at h
        dsimp only at h
        obtain ⟨rs, hr, hlen, hother⟩ := ih (zs.set a.1.Num v) r h
        refine ⟨rs, hr, by simpa using hlen, ?_⟩
        intro p hp
        have hp1 : p ∉ rest.map (fun a => a.1.Num) := fun h => hp (by simp at h ⊢; exact Or.inr h)
        have hp2 : a.1.Num ≠ p := fun h => hp (by simp [h])
        rw [hother p hp1, List.getElem?_set_ne hp2]

/-- The struct of a new record after wrapping. -/
theorem structFields_wrap (wp : Bool) (rs : List Value) :
    structFields wp (if wp then Value.ptr (some (Value.struct rs)) else Value.struct rs) =
      some rs := by
  cases wp <;> rfl

/-- A row decoded into a new record: when no two columns name the same position and
each mapped cell coerces into the zero slot of its field, the row loop returns a
record in which every mapped field holds the coerced cell and every position no
column of the row names holds its zero value. -/
theorem fillRow_decodes (c : Coercer) (labels : List (Option fieldInfo)) (wp : Bool)
    (t : StructType) (zs : List Value) (row : List String)
    (hzero : t.zero = Value.struct zs)
    (hnd : ((labels.filterMap id).map (fun f => f.Num)).Nodup)
    (hco : ∀ (j : Nat) (cell : String) (f : fieldInfo), row[j]? = some cell →
      labels[j]?.join = some f →
      ∃ slot v, zs[f.Num]? = some slot ∧ c.setField slot cell = Except.ok v) :
    ∃ r rs, fillRow c labels wp 0 row (createNewOutInner wp t) = Except.ok r ∧
      structFields wp r = some rs ∧ rs.length = zs.length ∧
      (∀ (j : Nat) (cell : String) (f : fieldInfo), row[j]? = some cell →
        labels[j]?.join = some f →
        ∃ slot v, zs[f.Num]? = some slot ∧ c.setField slot cell = Except.ok v ∧
          rs[f.Num]? = some v) ∧
      (∀ p, (∀ (j : Nat) (f : fieldInfo), j < row.length → labels[j]?.join = some f →
        f.Num ≠ p) → rs[p]? = zs[p]?) := by
  have hnd1 : ((assignments labels row).map (fun a => a.1.Num)).Nodup :=
    List.Nodup.sublist (assignments_nums_sublist labels row) hnd
  have hco1 : ∀ a ∈ assignments labels row, ∃ slot v, zs[a.1.Num]? = some slot ∧
      c.setField slot a.2 = Except.ok v := by
    intro a ha
    obtain ⟨j, hl, hr⟩ := (mem_assignments labels row a).mp ha
    exact hco j a.2 a.1 hr hl
  obtain ⟨rs, hrs, hlen, hfields, hother⟩ :=
    applyAssignments_struct c (assignments labels row) zs hnd1 hco1
  refine ⟨if wp then Value.ptr (some (Value.struct rs)) else Value.struct rs, rs, ?_,
    structFields_wrap wp rs, hlen, ?_, ?_⟩
  · rw [fillRow_eq_applyAssignments, List.drop_zero]
    unfold createNewOutInner
    rw [hzero, applyAssignments_wrap, hrs]
  · intro j cell f hr hl
    exact hfields (f, cell) ((mem_assignments labels row (f, cell)).mpr ⟨j, hl, hr⟩)
  · intro p hp
    apply hother
    intro hmem
    obtain ⟨a, ha, hap⟩ := List.mem_map.mp hmem
    obtain ⟨j, hl, hr⟩ := (mem_assignments labels row a).mp ha
    have hj : j < row.length := by
      rcases Nat.lt_or_ge j row.length with h | h
      · exact h
      · rw [List.getElem?_eq_none h] at hr; cases hr
    exact hp j a.1 hj hl hap

/-- A row that decodes leaves every position no column names at its zero value. -/
theorem fillRow_untouched (c : Coercer) (labels : List (Option fieldInfo)) (wp : Bool)
    (t : StructType) (zs : List Value) (row : List String) (r : Value)
    (hzero : t.zero = Value.struct zs)
    (h : fillRow c labels wp 0 row (createNewOutInner wp t) = Except.ok r) :
    ∃ rs, structFields wp r = some rs ∧ rs.length = zs.length ∧
      ∀ p, (∀ (j : Nat) (f : fieldInfo), labels[j]?.join = some f → f.Num ≠ p) →
        rs[p]? = zs[p]? := by
  rw [fillRow_eq_applyAssignments, List.drop_zero] at h
  unfold createNewOutInner at h
  rw [hzero, applyAssignments_wrap] at h
  cases ha : applyAssignments c false (assignments labels row) (Value.struct zs) with
  | error e => rw [ha] at h; cases h
  | ok s =>
    rw [ha] at h
    obtain ⟨rs, hs, hlen, hother⟩ := applyAssignments_untouched c _ zs s ha
    simp only [Except.ok.injEq] at h
    refine ⟨rs, ?_, hlen, ?_⟩
    · rw [← h, hs]
      exact structFields_wrap wp rs
    · intro p hp
      apply hother
      intro hmem
      obtain ⟨a, ha1, hap⟩ := List.mem_map.mp hmem
      obtain ⟨j, hl, _⟩ := (mem_assignments labels row a).mp ha1
      exact hp j a.1 hl hap

/-- When the row loop returns nil, every row decoded and the decoded records stand at
the positions of their rows. -/
theorem fillBody_ok_inv (c : Coercer) (labels : List (Option fieldInfo)) :
    ∀ (body : List (List String)) (i : Nat) (out out1 : Container),
      fillBody c labels i body out = (out1, Except.ok ()) →
      ∃ results, List.Forall₂ (fun row r => fillRow c labels out.innerWasPointer 0 row
          (createNewOutInner out.innerWasPointer out.inner) = Except.ok r) body results ∧
        out1.elems = out.elems.take i ++ results ++ out.elems.drop (i + body.length) ∧
        out1.innerWasPointer = out.innerWasPointer := by
  intro body
  induction body with
  | nil =>
    intro i out out1 h
    simp only [fillBody, Prod.mk.injEq, and_true] at h
    subst h
    exact ⟨[], List.Forall₂.nil, by simp, rfl⟩
  | cons row rest ih =>
    intro i out out1 h
    rw [fillBody] at h
    cases hrow : fillRow c labels out.innerWasPointer 0 row
        (createNewOutInner out.innerWasPointer out.inner) with
    | error f => rw [hrow] at h; simp at h
    | ok r =>
      rw [hrow] at h
      dsimp only at h
      unfold setIndex at h
      by_cases hi : i < out.elems.length
      · rw [if_pos hi] at h
        by_cases hk : out.kind = Kind.Array ∧ out.canAddr = false
        · rw [if_pos hk] at h; simp at h
        · rw [if_neg hk] at h
          dsimp only at h
          obtain ⟨rs, hall, helems, hwp⟩ := ih (i + 1) _ out1 h
          refine ⟨r :: rs, List.Forall₂.cons hrow hall, ?_, hwp⟩
          rw [helems]
          dsimp only
          rw [List.set_eq_take_append_cons_drop, if_pos hi]
          have h1 : (List.take i out.elems).length = i := by
            simp; omega
          rw [List.take_append_eq_append_take, List.drop_append_eq_append_drop]
          simp [h1, List.take_take]
          have h2 : i + 1 + rest.length - i = (rest.length) + 1 := by omega
          rw [h2, List.drop_succ_cons, List.drop_drop]
          have h3 : List.drop (i + 1 + rest.length) (List.take i out.elems) = [] := by
            apply List.drop_of_length_le
            simp; omega
          rw [h3]
          simp only [List.nil_append]
          congr 1
          omega
      · rw [if_neg hi] at h; simp at h

/-- When every declared key is among the headers, `maybeMissingStructFields` returns
nil. -/
theorem maybeMissingStructFields_none (fields : List fieldInfo) (headers : List String)
    (h : ∀ f ∈ fields, f.Key ∈ headers) : maybeMissingStructFields fields headers = none := by
  unfold maybeMissingStructFields
  split
  · rfl
  · have hfind : fields.find? (fun info => !(headers.contains info.Key)) = none := by
      rw [List.find?_eq_none]
      intro x hx
      simpa using h x hx
    rw [hfind]

/-- When some declared key is missing from the headers, `maybeMissingStructFields`
returns an error. -/
theorem maybeMissingStructFields_some (fields : List fieldInfo) (headers : List String)
    (h : ∃ f ∈ fields, f.Key ∉ headers) :
    ∃ k, maybeMissingStructFields fields headers = some (Err.unmatchedTag k) := by
  obtain ⟨f, hf, hk⟩ := h
  unfold maybeMissingStructFields
  have hlen : ¬ fields.length = 0 := by
    intro h0
    rw [List.length_eq_zero.mp h0] at hf
    cases hf
  rw [if_neg hlen]
  cases hfind : fields.find? (fun info => !(headers.contains info.Key)) with
  | none =>
    rw [List.find?_eq_none] at hfind
    have := hfind f hf
    simp at this
    exact absurd this hk
  | some g => exact ⟨g.Key, rfl⟩

/-- A list of results chosen for every member of a list. -/
theorem exists_forall₂ {α β : Type} (P : α → β → Prop) :
    ∀ l : List α, (∀ x ∈ l, ∃ y, P x y) → ∃ ys, List.Forall₂ P l ys := by
  intro l
  induction l with
  | nil => intro _; exact ⟨[], List.Forall₂.nil⟩
  | cons x xs ih =>
    intro h
    obtain ⟨y, hy⟩ := h x (List.mem_cons_self _ _)
    obtain ⟨ys, hys⟩ := ih (fun z hz => h z (List.mem_cons_of_mem _ hz))
    exact ⟨y :: ys, List.Forall₂.cons hy hys⟩

/-- Related lists are related position by position. -/
theorem forall₂_getElem? {α β : Type} (P : α → β → Prop) :
    ∀ (l : List α) (ys : List β), List.Forall₂ P l ys →
      ∀ (i : Nat) (x : α), l[i]? = some x → ∃ y, ys[i]? = some y ∧ P x y := by
  intro l ys h
  induction h with
  | nil => intro i x hx; simp at hx
  | cons hxy _ ih =>
    intro i x hx
    cases i with
    | zero =>
      simp only [List.getElem?_cons_zero, Option.some.injEq] at hx
      subst hx
      exact ⟨_, by simp, hxy⟩
    | succ n =>
      simp only [List.getElem?_cons_succ] at hx
      obtain ⟨y, hy, hp⟩ := ih n x hx
      exact ⟨y, by simpa using hy, hp⟩

/-- With a valid and sufficient destination, a struct type that has fields, a header
row that the strict setting accepts, and rows that all decode, `readTo` returns nil
and leaves the decoded records, in row order, followed by the elements the
destination had beyond the data rows. -/
theorem readTo_ok_of_rows (c : Coercer) (strict : Bool) (headers : List String)
    (body : List (List String)) (out : Container) (results : List Value)
    (hsuff : sufficient out body.length) (hstruct : out.inner.isStruct = true)
    (hfields : out.inner.info.Fields ≠ [])
    (hstrict : strict = true → maybeMissingStructFields out.inner.info.Fields headers = none)
    (hrows : List.Forall₂ (fun row r => fillRow c (csvHeadersLabels headers out.inner.info)
      out.innerWasPointer 0 row (createNewOutInner out.innerWasPointer out.inner) =
        Except.ok r) body results) :
    readTo c strict (Except.ok (headers :: body)) out =
      ({ out with elems := results ++ out.elems.drop body.length }, Except.ok ()) := by
  obtain ⟨_, hk, hc, hwp, hinner, hge, hdrop⟩ :=
    ensureOutCapacity_sufficient out body.length hsuff
  rw [readTo_eq_fillBody c strict headers body out hsuff hstruct hfields hstrict]
  have hrows1 : List.Forall₂ (fun row r => fillRow c (csvHeadersLabels headers out.inner.info)
      (grown out body.length).innerWasPointer 0 row
      (createNewOutInner (grown out body.length).innerWasPointer (grown out body.length).inner) =
        Except.ok r) body results := by
    rw [hwp, hinner]; exact hrows
  have hkind : ¬ ((grown out body.length).kind = Kind.Array ∧
      (grown out body.length).canAddr = false) := by
    rw [hk, hc]
    rcases hsuff with ⟨h1, _⟩ | ⟨_, h2, _⟩
    · rw [h1]; simp
    · rw [h2]; simp
  rw [fillBody_ok c _ body results 0 (grown out body.length) hrows1 (by omega) hkind]
  simp only [List.take_zero, List.nil_append, Nat.zero_add, hdrop, hk, hc, hwp, hinner]

/-- C2 (counterexample): with `FailIfUnmatchedStructTags` set, decoding the rows
`foo,BAR,Baz / f,1,baz / e,3,b` into `[]Sample` does not yield the two records: the
header row names none of `Quux`, `Blah`, `SPtr`, `Marshaller`, `Omit`, and `readTo`
returns the unmatched-tag error for `Quux`. -/
theorem readTo_Sample_strict_counterexample :
    (readTo (primCoercer noCoercer) true
        (Except.ok [["foo", "BAR", "Baz"], ["f", "1", "baz"], ["e", "3", "b"]])
        (sliceOf Sample [])).2 = Except.error (Failure.error (Err.unmatchedTag "Quux")) := by
  rfl

/-- C2 (amended): for a header row of pairwise distinct names followed by `N` data
rows, and a record type with at least one mapped field, pairwise distinct field
positions and every field key in the header, `readTo` into an empty addressable slice
returns nil whenever every mapped cell coerces into the zero slot of its field, and
leaves exactly `N` records, record `i` holding in each mapped field the coercion of
the cell of row `i` in the column of that field; for the rows
`foo,BAR,Baz / f,1,baz / e,3,b` this gives exactly the records `{f,1,baz}` and
`{e,3,b}`, for the three-field record in either setting of
`FailIfUnmatchedStructTags` and for `Sample` (its other fields zero) when the
setting is off. -/
theorem readTo_decodes (c : Coercer) (strict : Bool) (headers : List String)
    (body : List (List String)) (t : StructType) (wp : Bool) (zs : List Value)
    (hstruct : t.isStruct = true) (hzero : t.zero = Value.struct zs)
    (hfields : t.info.Fields ≠ [])
    (hkeys : ∀ f ∈ t.info.Fields, f.Key ∈ headers)
    (hhead : headers.Nodup) (hnum : (t.info.Fields.map (fun f => f.Num)).Nodup)
    (hco : ∀ row ∈ body, ∀ (j : Nat) (cell : String) (f : fieldInfo), row[j]? = some cell →
      (csvHeadersLabels headers t.info)[j]?.join = some f →
      ∃ slot v, zs[f.Num]? = some slot ∧ c.setField slot cell = Except.ok v) :
    (∃ records,
      readTo c strict (Except.ok (headers :: body))
          { kind := Kind.Slice, canAddr := true, innerWasPointer := wp, inner := t, elems := [] } =
        ({ kind := Kind.Slice, canAddr := true, innerWasPointer := wp, inner := t,
            elems := records }, Except.ok ()) ∧
      records.length = body.length ∧
      ∀ (i : Nat) (row : List String), body[i]? = some row →
        ∃ rs, records[i]?.bind (structFields wp) = some rs ∧ rs.length = zs.length ∧
          ∀ (j : Nat) (cell : String) (f : fieldInfo), row[j]? = some cell →
            (csvHeadersLabels headers t.info)[j]?.join = some f →
            ∃ slot v, zs[f.Num]? = some slot ∧ c.setField slot cell = Except.ok v ∧
              rs[f.Num]? = some v) ∧
    (readTo (primCoercer c) strict
        (Except.ok [["foo", "BAR", "Baz"], ["f", "1", "baz"], ["e", "3", "b"]])
        (sliceOf Sample3 []) =
      (sliceOf Sample3
        [Value.struct [Value.str "f", Value.int 1, Value.str "baz"],
          Value.struct [Value.str "e", Value.int 3, Value.str "b"]], Except.ok ())) ∧
    (readTo (primCoercer c) false
        (Except.ok [["foo", "BAR", "Baz"], ["f", "1", "baz"], ["e", "3", "b"]])
        (sliceOf Sample []) =
      (sliceOf Sample
        [Value.struct [Value.str "f", Value.int 1, Value.str "baz", Value.float 0,
            Value.ptr none, Value.ptr none, Value.struct [Value.str "", Value.int 0],
            Value.ptr none],
          Value.struct [Value.str "e", Value.int 3, Value.str "b", Value.float 0,
            Value.ptr none, Value.ptr none, Value.struct [Value.str "", Value.int 0],
            Value.ptr none]], Except.ok ())) := by
  refine ⟨?_, ?_, ?_⟩
  · let out : Container :=
      { kind := Kind.Slice, canAddr := true, innerWasPointer := wp, inner := t, elems := [] }
    have hnd := csvHeadersLabels_nums_nodup headers t.info hhead hnum
    have hall : ∀ row ∈ body, ∃ r, (fun row r =>
        fillRow c (csvHeadersLabels headers t.info) wp 0 row (createNewOutInner wp t) =
          Except.ok r ∧
        ∃ rs, structFields wp r = some rs ∧ rs.length = zs.length ∧
          ∀ (j : Nat) (cell : String) (f : fieldInfo), row[j]? = some cell →
            (csvHeadersLabels headers t.info)[j]?.join = some f →
            ∃ slot v, zs[f.Num]? = some slot ∧ c.setField slot cell = Except.ok v ∧
              rs[f.Num]? = some v) row r := by
      intro row hrow
      obtain ⟨r, rs, h1, h2, h3, h4, _⟩ :=
        fillRow_decodes c (csvHeadersLabels headers t.info) wp t zs row hzero hnd (hco row hrow)
      exact ⟨r, h1, rs, h2, h3, h4⟩
    obtain ⟨records, hrec⟩ := exists_forall₂ _ body hall
    have hrows : List.Forall₂ (fun row r =>
        fillRow c (csvHeadersLabels headers out.inner.info) out.innerWasPointer 0 row
          (createNewOutInner out.innerWasPointer out.inner) = Except.ok r) body records :=
      List.Forall₂.imp (fun _ _ h => h.1) hrec
    have hread := readTo_ok_of_rows c strict headers body out records
      (Or.inl ⟨rfl, Or.inl rfl⟩) hstruct hfields
      (fun _ => maybeMissingStructFields_none _ _ hkeys) hrows
    refine ⟨records, ?_, ?_, ?_⟩
    · rw [hread]
      simp [out]
    · exact (List.Forall₂.length_eq hrec).symm
    · intro i row hi
      obtain ⟨r, hr, _, rs, h2, h3, h4⟩ := forall₂_getElem? _ body records hrec i row hi
      exact ⟨rs, by rw [hr]; exact h2, h3, h4⟩
  · cases strict <;> rfl
  · rfl

/-- The decoding scenario as an instance of `readTo_decodes`: the three-field record,
the strict setting, and the rows `foo,BAR,Baz / f,1,baz / e,3,b`. -/
theorem readTo_decodes_witness :
    ∃ records,
      readTo (primCoercer noCoercer) true
          (Except.ok [["foo", "BAR", "Baz"], ["f", "1", "baz"], ["e", "3", "b"]])
          { kind := Kind.Slice, canAddr := true, innerWasPointer := false, inner := Sample3,
            elems := [] } =
        ({ kind := Kind.Slice, canAddr := true, innerWasPointer := false, inner := Sample3,
            elems := records }, Except.ok ()) ∧
      records.length = 2 := by
  have h := (readTo_decodes (primCoercer noCoercer) true ["foo", "BAR", "Baz"]
    [["f", "1", "baz"], ["e", "3", "b"]] Sample3 false
    [Value.str "", Value.int 0, Value.str ""] rfl rfl (by decide) (by decide) (by decide)
    (by decide)
    (by
      intro row hrow j cell f hr hl
      have hj : j = 0 ∨ j = 1 ∨ j = 2 := by
        rcases Nat.lt_or_ge j 3 with h | h
        · omega
        · exfalso
          have hlen : row.length = 3 := by
            simp only [List.mem_cons, List.mem_singleton, List.not_mem_nil, or_false] at hrow
            rcases hrow with rfl | rfl <;> rfl
          rw [List.getElem?_eq_none (by omega)] at hr
          cases hr
      simp only [List.mem_cons, List.mem_singleton, List.not_mem_nil, or_false] at hrow
      rcases hrow with rfl | rfl <;> rcases hj with rfl | rfl | rfl
      all_goals
        simp only [List.getElem?_cons_zero, List.getElem?_cons_succ, Option.some.injEq] at hr
        subst hr
        have hf : some f = _ := hl.symm
        simp only [csvHeadersLabels, List.map_cons, List.getElem?_cons_zero,
          List.getElem?_cons_succ] at hf
        have hf2 := Option.some.inj hf
        subst hf2
        exact ⟨_, _, rfl, rfl⟩)).1
  obtain ⟨records, h1, h2, _⟩ := h
  exact ⟨records, h1, h2⟩

/-! ## Unmatched fields -/

/-- What `ensureOutCapacity` leaves of the destination: everything but the elements. -/
theorem ensureOutCapacity_fields (out : Container) (n : Nat) :
    (ensureOutCapacity out n).1.kind = out.kind ∧
      (ensureOutCapacity out n).1.canAddr = out.canAddr ∧
      (ensureOutCapacity out n).1.innerWasPointer = out.innerWasPointer ∧
      (ensureOutCapacity out n).1.inner = out.inner := by
  unfold ensureOutCapacity
  split
  · split <;> exact ⟨rfl, rfl, rfl, rfl⟩
  · split
    · exact ⟨rfl, rfl, rfl, rfl⟩
    · split <;> exact ⟨rfl, rfl, rfl, rfl⟩
  · exact ⟨rfl, rfl, rfl, rfl⟩

/-- When `readTo` returns nil on an input with a header row, it ran the row loop on
the destination `ensureOutCapacity` left. -/
theorem readTo_ok_inv (c : Coercer) (strict : Bool) (headers : List String)
    (body : List (List String)) (out : Container)
    (h : (readTo c strict (Except.ok (headers :: body)) out).2 = Except.ok ()) :
    readTo c strict (Except.ok (headers :: body)) out =
      fillBody c (csvHeadersLabels headers out.inner.info) 0 body
        (ensureOutCapacity out (body.length + 1)).1 := by
  unfold readTo at h ⊢
  cases h1 : ensureOutType out.kind with
  | some e => rw [h1] at h; simp at h
  | none =>
    rw [h1] at h
    dsimp only at h ⊢
    cases h2 : ensureOutInnerType out.inner with
    | some e => rw [h2] at h; simp at h
    | none =>
      rw [h2] at h
      dsimp only at h ⊢
      rw [List.length_cons] at h ⊢
      cases hcap : ensureOutCapacity out (body.length + 1) with
      | mk out1 e =>
        rw [hcap] at h
        cases e with
        | some e => simp at h
        | none =>
          dsimp only at h ⊢
          by_cases hlen : out.inner.info.Fields.length = 0
          · rw [if_pos hlen] at h; simp at h
          · rw [if_neg hlen] at h ⊢
            cases hm : maybeMissingStructFields out.inner.info.Fields headers with
            | none => rfl
            | some e =>
              cases strict with
              | false => rfl
              | true => rw [hm] at h; simp at h

/-- C5 (counterexample): the header row `BAR` leaves `foo` and `Baz` unmatched,
`FailIfUnmatchedStructTags` is off and the destination is an addressable slice, yet
`readTo` does not succeed: the cell `x` under `BAR` does not coerce to a whole number
and `readTo` returns that error. -/
theorem readTo_nonstrict_counterexample :
    (∃ f ∈ Sample3.info.Fields, f.Key ∉ ["BAR"]) ∧
      sufficient (sliceOf Sample3 []) 1 ∧
      (readTo (primCoercer noCoercer) false (Except.ok [["BAR"], ["x"]])
          (sliceOf Sample3 [])).2 =
        Except.error (Failure.error (Err.field "cannot parse x as a whole number")) := by
  refine ⟨⟨plainField 0 "foo" [] false, by decide, by decide⟩, ?_, rfl⟩
  exact Or.inl ⟨rfl, Or.inl rfl⟩

/-- C5 (amended): when the header row leaves a declared field unmatched, `readTo`
returns an error if `FailIfUnmatchedStructTags` is on; if it is off, `readTo` returns
nil for every sufficient destination of structs provided the mapped cells of every
row coerce, and whenever it returns nil every unmatched field of every decoded
record holds its zero value (the field positions of the descriptor being pairwise
distinct). -/
theorem unmatched_policy (c : Coercer) (headers : List String) (body : List (List String))
    (out : Container) (hunmatched : ∃ f ∈ out.inner.info.Fields, f.Key ∉ headers) :
    (∃ e, (readTo c true (Except.ok (headers :: body)) out).2 =
        Except.error (Failure.error e)) ∧
    (sufficient out body.length → out.inner.isStruct = true →
      (∀ row ∈ body, rowCoerces c (csvHeadersLabels headers out.inner.info) out row) →
      (readTo c false (Except.ok (headers :: body)) out).2 = Except.ok ()) ∧
    (∀ zs : List Value, out.inner.zero = Value.struct zs →
      (out.inner.info.Fields.map (fun f => f.Num)).Nodup →
      (readTo c false (Except.ok (headers :: body)) out).2 = Except.ok () →
      ∀ (i : Nat), i < body.length → ∀ f ∈ out.inner.info.Fields, f.Key ∉ headers →
        ∃ rs, (readTo c false (Except.ok (headers :: body)) out).1.elems[i]?.bind
            (structFields out.innerWasPointer) = some rs ∧
          rs[f.Num]? = zs[f.Num]?) := by
  have hfields : out.inner.info.Fields ≠ [] := by
    obtain ⟨f, hf, _⟩ := hunmatched
    intro h
    rw [h] at hf
    cases hf
  refine ⟨?_, ?_, ?_⟩
  · obtain ⟨k, hk⟩ := maybeMissingStructFields_some _ _ hunmatched
    unfold readTo
    cases h1 : ensureOutType out.kind with
    | some e => exact ⟨e, rfl⟩
    | none =>
      dsimp only
      cases h2 : ensureOutInnerType out.inner with
      | some e => exact ⟨e, rfl⟩
      | none =>
        dsimp only
        cases hcap : ensureOutCapacity out (headers :: body).length with
        | mk out1 e =>
          cases e with
          | some e => exact ⟨e, rfl⟩
          | none =>
            dsimp only
            split
            · exact ⟨Err.noTags, rfl⟩
            · rw [hk]
              exact ⟨Err.unmatchedTag k, rfl⟩
  · intro hsuff hstruct hrows
    obtain ⟨results, hres⟩ := exists_forall₂ _ body hrows
    rw [readTo_ok_of_rows c false headers body out results hsuff hstruct hfields
      (fun h => by cases h) hres]
  · intro zs hzero hnum hok i hi f hf hfk
    have hread := readTo_ok_inv c false headers body out hok
    obtain ⟨_, _, hwp, hinner⟩ := ensureOutCapacity_fields out (body.length + 1)
    obtain ⟨results, hall, helems, _⟩ := fillBody_ok_inv c _ body 0 _
      (readTo c false (Except.ok (headers :: body)) out).1 (by
        rw [hread] at hok ⊢
        exact Prod.ext rfl hok)
    have hlen : results.length = body.length := (List.Forall₂.length_eq hall).symm
    obtain ⟨row, hrow⟩ : ∃ row, body[i]? = some row := ⟨body[i], by simp [hi]⟩
    obtain ⟨r, hr, hfill⟩ := forall₂_getElem? _ body results hall i row hrow
    rw [hwp, hinner] at hfill
    obtain ⟨rs, hrs, _, hother⟩ :=
      fillRow_untouched c _ out.innerWasPointer out.inner zs row r hzero hfill
    refine ⟨rs, ?_, ?_⟩
    · rw [helems]
      simp only [List.take_zero, List.nil_append]
      rw [List.getElem?_append_left (by omega), hr]
      exact hrs
    · apply hother
      intro j g hg hnumeq
      obtain ⟨hgm, hgk⟩ := csvHeadersLabels_mem headers out.inner.info j g hg
      have hgf : g = f := List.inj_on_of_nodup_map hnum hgm hf hnumeq
      apply hfk
      rw [← hgf]
      exact List.mem_iff_getElem?.mpr ⟨j, hgk⟩

/-- The fields `foo`, `BAR`, `Baz` against the headers `hi`, `mom`, `bacon`: an error
in the strict setting, nil and a record of zero values otherwise. -/
theorem unmatched_policy_witness :
    (∃ e, (readTo (primCoercer noCoercer) true
        (Except.ok [["hi", "mom", "bacon"], ["a", "b", "c"]]) (sliceOf Sample3 [])).2 =
          Except.error (Failure.error e)) ∧
      (readTo (primCoercer noCoercer) false
        (Except.ok [["hi", "mom", "bacon"], ["a", "b", "c"]]) (sliceOf Sample3 [])).2 =
          Except.ok () ∧
      ∃ rs, (readTo (primCoercer noCoercer) false
          (Except.ok [["hi", "mom", "bacon"], ["a", "b", "c"]])
          (sliceOf Sample3 [])).1.elems[0]?.bind (structFields false) = some rs ∧
        rs[1]? = some (Value.int 0) := by
  have h := unmatched_policy (primCoercer noCoercer) ["hi", "mom", "bacon"] [["a", "b", "c"]]
    (sliceOf Sample3 []) ⟨plainField 1 "BAR" [] false, by decide, by decide⟩
  have hok := h.2.1 (Or.inl ⟨rfl, Or.inl rfl⟩) rfl (by
    intro row hrow
    simp only [List.mem_singleton] at hrow
    subst hrow
    exact ⟨_, rfl⟩)
  refine ⟨h.1, hok, ?_⟩
  exact h.2.2 [Value.str "", Value.int 0, Value.str ""] rfl (by decide) hok 0 (by decide)
    (plainField 1 "BAR" [] false) (by decide) (by decide)

/-! ## Encoding -/

/-- The header row is the list of first keys. -/
theorem headerLabels_ok :
    ∀ (fields : List fieldInfo) (header : List String),
      List.Forall₂ (fun f k => f.keys.head? = some k) fields header →
      headerLabels fields = Except.ok header := by
  intro fields header h
  induction h with
  | nil => rfl
  | @cons f k fs ks hk _ ih =>
    rw [headerLabels, ih]
    have : f.getFirstKey = Except.ok k := by
      unfold fieldInfo.getFirstKey
      cases hks : f.keys with
      | nil => rw [hks] at hk; cases hk
      | cons k1 _ =>
        rw [hks] at hk
        simp only [List.head?_cons, Option.some.injEq] at hk
        rw [hk]
    rw [this]

/-- The row of a record is the list of its field texts. -/
theorem fieldTexts_ok (c : Coercer) (wp : Bool) (v : Value) :
    ∀ (fields : List fieldInfo) (row : List String),
      List.Forall₂ (fun f cell => getInnerField c v wp f.IndexChain = Except.ok cell)
        fields row →
      fieldTexts c wp v fields = Except.ok row := by
  intro fields row h
  induction h with
  | nil => rfl
  | cons hcell _ ih => rw [fieldTexts, hcell, ih]

/-- The rows of a collection are the rows of its records, in order. -/
theorem recordRows_ok (c : Coercer) (wp : Bool) (fields : List fieldInfo) :
    ∀ (elems : List Value) (rows : List (List String)),
      List.Forall₂ (fun v row => fieldTexts c wp v fields = Except.ok row) elems rows →
      recordRows c wp fields elems = Except.ok rows := by
  intro elems rows h
  induction h with
  | nil => rfl
  | cons hrow _ ih => rw [recordRows, hrow, ih]

/-- A sink that never fails accepts all rows, in order. -/
theorem writeRows_ok :
    ∀ (rows : List (List String)) (w : SafeCSVWriter), w.quota = none →
      writeRows rows w = ({ w with rows := w.rows ++ rows }, none) := by
  intro rows
  induction rows with
  | nil => intro w _; simp [writeRows]
  | cons row rest ih =>
    intro w hq
    rw [writeRows]
    have hw : w.Write row = ({ w with rows := w.rows ++ [row] }, none) := by
      unfold SafeCSVWriter.Write
      rw [hq]
    rw [hw]
    dsimp only
    have hstep := ih { w with rows := w.rows ++ [row] } hq
    rw [hstep]
    simp

/-- The header row does not depend on the `omitEmpty` flags. -/
theorem headerLabels_ignores_omitEmpty (flag : fieldInfo → Bool) :
    ∀ fields : List fieldInfo,
      headerLabels (fields.map (fun f => { f with omitEmpty := flag f })) =
        headerLabels fields := by
  intro fields
  induction fields with
  | nil => rfl
  | cons f fs ih =>
    simp only [List.map_cons, headerLabels, ih]
    rfl

/-- The row of a record does not depend on the `omitEmpty` flags. -/
theorem fieldTexts_ignores_omitEmpty (c : Coercer) (wp : Bool) (flag : fieldInfo → Bool)
    (v : Value) :
    ∀ fields : List fieldInfo,
      fieldTexts c wp v (fields.map (fun f => { f with omitEmpty := flag f })) =
        fieldTexts c wp v fields := by
  intro fields
  induction fields with
  | nil => rfl
  | cons f fs ih => simp only [List.map_cons, fieldTexts, ih]

/-- The rows of a collection do not depend on the `omitEmpty` flags. -/
theorem recordRows_ignores_omitEmpty (c : Coercer) (wp : Bool) (flag : fieldInfo → Bool)
    (fields : List fieldInfo) :
    ∀ elems : List Value,
      recordRows c wp (fields.map (fun f => { f with omitEmpty := flag f })) elems =
        recordRows c wp fields elems := by
  intro elems
  induction elems with
  | nil => rfl
  | cons v vs ih => rw [recordRows, recordRows, fieldTexts_ignores_omitEmpty, ih]

/-- The two type checks of `writeTo` pass for a slice or array of structs. -/
theorem writeTo_checks (inp : Container)
    (hkind : inp.kind = Kind.Slice ∨ inp.kind = Kind.Array)
    (hstruct : inp.inner.isStruct = true) :
    ensureInType inp.kind = none ∧ ensureInInnerType inp.inner = none := by
  constructor
  · rcases hkind with hk | hk <;> rw [hk] <;> rfl
  · simp [ensureInInnerType, hstruct]

/-- C8: for a slice or array of structs and a sink that accepts every write, when
`header` lists the first alias of every field descriptor and `rows` lists, record by
record in the order of the collection, the texts of the fields in descriptor order,
`writeTo` with `omitHeaders` false writes `header` and then `rows`, and with
`omitHeaders` true writes `rows` only, and returns what the flush reports; there is
one row per record and one cell per field descriptor. For
`[{Foo:abc,Bar:123},{Foo:def,Bar:234}]` tagged `Baz,foo` and `BAR` the rows written
are `Baz,BAR / abc,123 / def,234`. -/
theorem writeTo_rows (c : Coercer) (writer : SafeCSVWriter) (inp : Container)
    (header : List String) (rows : List (List String))
    (hkind : inp.kind = Kind.Slice ∨ inp.kind = Kind.Array)
    (hstruct : inp.inner.isStruct = true) (hsink : writer.quota = none)
    (hheader : List.Forall₂ (fun f k => f.keys.head? = some k) inp.inner.info.Fields header)
    (hrows : List.Forall₂ (fun v row => List.Forall₂ (fun f cell =>
      getInnerField c v inp.innerWasPointer f.IndexChain = Except.ok cell)
      inp.inner.info.Fields row) inp.elems rows) :
    writeTo c writer inp false =
        SafeCSVWriter.flushAndError { writer with rows := writer.rows ++ header :: rows } ∧
      writeTo c writer inp true =
        SafeCSVWriter.flushAndError { writer with rows := writer.rows ++ rows } ∧
      rows.length = inp.elems.length ∧
      header.length = inp.inner.info.Fields.length ∧
      (∀ row ∈ rows, row.length = inp.inner.info.Fields.length) ∧
      writeTo (primCoercer c) freshWriter
          (sliceOf MultiTagSample
            [Value.struct [Value.str "abc", Value.int 123],
              Value.struct [Value.str "def", Value.int 234]]) false =
        ({ rows := [["Baz", "BAR"], ["abc", "123"], ["def", "234"]], quota := none,
            flushError := none }, Except.ok ()) := by
  obtain ⟨h1, h2⟩ := writeTo_checks inp hkind hstruct
  have hh := headerLabels_ok _ _ hheader
  have hr : recordRows c inp.innerWasPointer inp.inner.info.Fields inp.elems = Except.ok rows :=
    recordRows_ok c _ _ _ _ (List.Forall₂.imp (fun _ _ h => fieldTexts_ok c _ _ _ _ h) hrows)
  refine ⟨?_, ?_, (List.Forall₂.length_eq hrows).symm, (List.Forall₂.length_eq hheader).symm,
    ?_, rfl⟩
  · unfold writeTo
    rw [h1, h2]
    simp only [Bool.not_false, if_true, hh, hr, List.singleton_append]
    rw [writeRows_ok _ _ hsink]
  · unfold writeTo
    rw [h1, h2]
    simp only [Bool.not_true, Bool.false_eq_true, if_false, hr, List.nil_append]
    rw [writeRows_ok _ _ hsink]
  · intro row hrow
    obtain ⟨i, hi⟩ := List.mem_iff_getElem?.mp hrow
    have hflip := List.Forall₂.flip hrows
    obtain ⟨v, _, hv⟩ := forall₂_getElem? _ rows inp.elems hflip i row hi
    exact (List.Forall₂.length_eq hv).symm

/-- The encoding scenario as an instance of `writeTo_rows`. -/
theorem writeTo_rows_witness :
    writeTo (primCoercer noCoercer) freshWriter
        (sliceOf MultiTagSample
          [Value.struct [Value.str "abc", Value.int 123],
            Value.struct [Value.str "def", Value.int 234]]) true =
      SafeCSVWriter.flushAndError
        { freshWriter with rows := freshWriter.rows ++ [["abc", "123"], ["def", "234"]] } :=
  (writeTo_rows (primCoercer noCoercer) freshWriter
    (sliceOf MultiTagSample
      [Value.struct [Value.str "abc", Value.int 123],
        Value.struct [Value.str "def", Value.int 234]])
    ["Baz", "BAR"] [["abc", "123"], ["def", "234"]] (Or.inl rfl) rfl rfl
    (List.Forall₂.cons rfl (List.Forall₂.cons rfl List.Forall₂.nil))
    (List.Forall₂.cons (List.Forall₂.cons rfl (List.Forall₂.cons rfl List.Forall₂.nil))
      (List.Forall₂.cons (List.Forall₂.cons rfl (List.Forall₂.cons rfl List.Forall₂.nil))
        List.Forall₂.nil))).2.1

/-- C9 (counterexample): two records of `MyType` whose `omitempty` field `Bar` is
absent are bulk encoded with the header cell `bar` in that column, not with empty
text. -/
theorem omitempty_header_counterexample :
    (writeTo (primCoercer noCoercer) freshWriter
        (sliceOf MyType
          [Value.struct [Value.str "foo", Value.ptr none, Value.str "baz"],
            Value.struct [Value.str "foo", Value.ptr none, Value.str "baz"]]) false).1.rows =
      [["foo", "bar", "baz"], ["foo", "", "baz"], ["foo", "", "baz"]] ∧
      ¬ ((writeTo (primCoercer noCoercer) freshWriter
        (sliceOf MyType
          [Value.struct [Value.str "foo", Value.ptr none, Value.str "baz"],
            Value.struct [Value.str "foo", Value.ptr none, Value.str "baz"]]) false).1.rows[0]? =
        some ["foo", "", "baz"]) := by
  refine ⟨rfl, ?_⟩
  decide

/-- C9 (amended): bulk encoding does not consult `omitempty`: whatever the
`omitEmpty` flags of the descriptor are set to, `writeTo` writes the same rows and
returns the same result, so the header cell of a column is the first alias of its
field and each cell the text of the field, whether or not the values of the column
are all absent or empty; for records of `MyType` whose `Bar` is absent the header
row is `foo,bar,baz` and the cells of `Bar` are the text of an absent value. -/
theorem writeTo_ignores_omitEmpty (c : Coercer) (writer : SafeCSVWriter) (inp : Container)
    (omitHeaders : Bool) (flag : fieldInfo → Bool) :
    writeTo c writer (withOmitEmpty flag inp) omitHeaders = writeTo c writer inp omitHeaders ∧
      (writeTo (primCoercer c) freshWriter
        (sliceOf MyType
          [Value.struct [Value.str "foo", Value.ptr none, Value.str "baz"],
            Value.struct [Value.str "foo", Value.ptr none, Value.str "baz"]]) false).1.rows =
        [["foo", "bar", "baz"], ["foo", "", "baz"], ["foo", "", "baz"]] := by
  refine ⟨?_, rfl⟩
  unfold writeTo withOmitEmpty
  simp only [ensureInInnerType, headerLabels_ignores_omitEmpty,
    recordRows_ignores_omitEmpty]

/-- After the first element, the loop of `writeFromChan` writes one row per element,
in order, and ends with the flush. -/
theorem chanLoop_ok (c : Coercer) (inType : ElemKind) (wp : Bool) (fields : List fieldInfo)
    (hty : ensureStructOrPtr inType = none) :
    ∀ (rest : List ChanValue) (rows : List (List String)) (w : SafeCSVWriter),
      w.quota = none →
      List.Forall₂ (fun v row => fieldTexts c wp v.value fields = Except.ok row) rest rows →
      chanLoop c inType wp fields rest w =
        SafeCSVWriter.flushAndError { w with rows := w.rows ++ rows } := by
  intro rest rows w hq h
  induction h generalizing w with
  | nil => simp [chanLoop]
  | @cons v row vs rs hrow _ ih =>
    rw [chanLoop, hty]
    dsimp only
    have hw : w.Write row = ({ w with rows := w.rows ++ [row] }, none) := by
      unfold SafeCSVWriter.Write
      rw [hq]
    unfold chanWrite
    rw [hrow]
    dsimp only
    rw [hw]
    dsimp only
    have hstep := ih { w with rows := w.rows ++ [row] } hq
    rw [hstep]
    simp

/-- C10: when the channel is closed before any element is received, `writeFromChan`
returns an error and leaves the sink as it was; otherwise, the first element being a
struct or a pointer and the sink accepting every write, when `header` lists the first
alias of every field descriptor of the first element's type and `rows` lists, element
by element in the order received, the texts of the fields in descriptor order,
`writeFromChan` writes `header` and then `rows`, which are one row more than there
are elements, and returns what the flush reports. -/
theorem writeFromChan_rows (c : Coercer) (writer : SafeCSVWriter) (firstValue : ChanValue)
    (rest : List ChanValue) (header : List String) (rows : List (List String))
    (hty : ensureStructOrPtr firstValue.kind = none) (hsink : writer.quota = none)
    (hheader : List.Forall₂ (fun f k => f.keys.head? = some k) firstValue.info.Fields header)
    (hrows : List.Forall₂ (fun v row => List.Forall₂ (fun f cell =>
      getInnerField c v.value (decide (firstValue.kind = ElemKind.Ptr)) f.IndexChain =
        Except.ok cell) firstValue.info.Fields row) (firstValue :: rest) rows) :
    writeFromChan c writer [] = (writer, Except.error (Failure.error Err.channelClosed)) ∧
      writeFromChan c writer (firstValue :: rest) =
        SafeCSVWriter.flushAndError { writer with rows := writer.rows ++ header :: rows } ∧
      (header :: rows).length = (firstValue :: rest).length + 1 ∧
      (∀ row ∈ rows, row.length = firstValue.info.Fields.length) := by
  have hh := headerLabels_ok _ _ hheader
  have hlen := List.Forall₂.length_eq hrows
  refine ⟨rfl, ?_, by simp [← hlen], ?_⟩
  · cases hrows with
    | @cons _ row _ rs hrow hrest =>
      have hfirst := fieldTexts_ok c _ _ _ _ hrow
      have hw : writer.Write header =
          ({ writer with rows := writer.rows ++ [header] }, none) := by
        unfold SafeCSVWriter.Write
        rw [hsink]
      have hw2 : SafeCSVWriter.Write { writer with rows := writer.rows ++ [header] } row =
          ({ writer with rows := writer.rows ++ [header] ++ [row] }, none) := by
        unfold SafeCSVWriter.Write
        dsimp only
        rw [hsink]
      unfold writeFromChan
      dsimp only
      rw [hty]
      dsimp only
      rw [hh]
      dsimp only
      rw [hw]
      dsimp only
      unfold chanWrite
      rw [hfirst]
      dsimp only
      rw [hw2]
      dsimp only
      have hloop := chanLoop_ok c firstValue.kind (decide (firstValue.kind = ElemKind.Ptr))
        firstValue.info.Fields hty rest rs
        { writer with rows := writer.rows ++ [header] ++ [row] } hsink
        (List.Forall₂.imp (fun _ _ h => fieldTexts_ok c _ _ _ _ h) hrest)
      rw [hloop]
      simp
  · intro row hrow
    obtain ⟨i, hi⟩ := List.mem_iff_getElem?.mp hrow
    have hflip := List.Forall₂.flip hrows
    obtain ⟨v, _, hv⟩ := forall₂_getElem? _ rows (firstValue :: rest) hflip i row hi
    exact (List.Forall₂.length_eq hv).symm

/-- Two records of the three-field type sent through the channel: three rows. -/
theorem writeFromChan_rows_witness :
    writeFromChan (primCoercer noCoercer) freshWriter
        [{ value := Value.struct [Value.str "f", Value.int 0, Value.str "baz0"],
           kind := ElemKind.Struct, info := Sample3.info },
          { value := Value.struct [Value.str "f", Value.int 1, Value.str "baz1"],
            kind := ElemKind.Struct, info := Sample3.info }] =
      SafeCSVWriter.flushAndError
        { freshWriter with
          rows := freshWriter.rows ++
            ["foo", "BAR", "Baz"] :: [["f", "0", "baz0"], ["f", "1", "baz1"]] } :=
  (writeFromChan_rows (primCoercer noCoercer) freshWriter
    { value := Value.struct [Value.str "f", Value.int 0, Value.str "baz0"],
      kind := ElemKind.Struct, info := Sample3.info }
    [{ value := Value.struct [Value.str "f", Value.int 1, Value.str "baz1"],
       kind := ElemKind.Struct, info := Sample3.info }]
    ["foo", "BAR", "Baz"] [["f", "0", "baz0"], ["f", "1", "baz1"]] rfl rfl
    (List.Forall₂.cons rfl (List.Forall₂.cons rfl (List.Forall₂.cons rfl List.Forall₂.nil)))
    (List.Forall₂.cons
      (List.Forall₂.cons rfl (List.Forall₂.cons rfl (List.Forall₂.cons rfl List.Forall₂.nil)))
      (List.Forall₂.cons
        (List.Forall₂.cons rfl (List.Forall₂.cons rfl (List.Forall₂.cons rfl List.Forall₂.nil)))
        List.Forall₂.nil))).2.1

/-! ## Round trip -/

/-- With pairwise distinct keys, looking up the key of a field finds that field. -/
theorem getCSVFieldPosition_self (info : structInfo)
    (hkeys : (info.Fields.map (fun f => f.Key)).Nodup) (f : fieldInfo) (hf : f ∈ info.Fields) :
    getCSVFieldPosition f.Key info = some f := by
  cases h : getCSVFieldPosition f.Key info with
  | none =>
    exact absurd rfl ((getCSVFieldPosition_none f.Key info).mp h f hf)
  | some g =>
    obtain ⟨pre, post, hsplit, hk, _⟩ := (getCSVFieldPosition_some f.Key info g).mp h
    have hg : g ∈ info.Fields := by rw [hsplit]; simp
    rw [List.inj_on_of_nodup_map hkeys hg hf hk]

/-- With pairwise distinct keys, the correspondence for the header row of the keys
sends column `j` to field `j`. -/
theorem csvHeadersLabels_keys (info : structInfo)
    (hkeys : (info.Fields.map (fun f => f.Key)).Nodup) :
    csvHeadersLabels (info.Fields.map (fun f => f.Key)) info = info.Fields.map some := by
  unfold csvHeadersLabels
  rw [List.map_map]
  apply List.map_congr_left
  intro f hf
  exact getCSVFieldPosition_self info hkeys f hf

/-- The text of a field reached by a one-step index chain. -/
theorem getInnerField_flat (c : Coercer) (wp : Bool) (r : Value) (vs : List Value) (n : Nat)
    (x : Value) (text : String) (hr : structFields wp r = some vs) (hx : vs[n]? = some x)
    (ht : c.getFieldAsString x = Except.ok text) :
    getInnerField c r wp [n] = Except.ok text := by
  have hfield : FieldByIndex (Value.struct vs) [n] = Except.ok x := by
    simp [FieldByIndex, Field, hx, fieldByIndexFrom]
  cases wp with
  | false =>
    cases r with
    | struct fs =>
      simp only [structFields, Option.some.injEq] at hr
      subst hr
      simp only [getInnerField, Bool.false_eq_true, if_false, hfield, ht]
    | _ => simp [structFields] at hr
  | true =>
    cases r with
    | ptr target =>
      cases target with
      | none => simp [structFields] at hr
      | some s =>
        cases s with
        | struct fs =>
          simp only [structFields, Option.some.injEq] at hr
          subst hr
          simp only [getInnerField, if_true, hfield, ht]
        | _ => simp [structFields] at hr
    | _ => simp [structFields] at hr

/-- When every column has an entry, the assignments of a row pair the fields with the
cells. -/
theorem assignments_map_some :
    ∀ (fields : List fieldInfo) (row : List String),
      assignments (fields.map some) row = fields.zip row := by
  intro fields
  induction fields with
  | nil => intro row; simp [assignments]
  | cons f fs ih =>
    intro row
    cases row with
    | nil => simp [assignments]
    | cons cell rest =>
      have : assignments (some f :: fs.map some) (cell :: rest) =
          (f, cell) :: assignments (fs.map some) rest := by
        simp [assignments]
      rw [List.map_cons, this, ih]
      rfl

/-- One record through `writeTo` and back through `readTo`: the texts of its fields
exist, the row loop decodes them into a new record, and the decoded record agrees
with the original on every mapped field. -/
theorem record_round_trip (c : Coercer) (wp : Bool) (t : StructType) (zs : List Value)
    (r : Value) (vs : List Value) (hzero : t.zero = Value.struct zs)
    (hnum : (t.info.Fields.map (fun f => f.Num)).Nodup)
    (hflat : ∀ f ∈ t.info.Fields, f.IndexChain = [f.Num])
    (hr : structFields wp r = some vs)
    (hprim : ∀ f ∈ t.info.Fields, ∃ slot x text, zs[f.Num]? = some slot ∧
      vs[f.Num]? = some x ∧ c.getFieldAsString x = Except.ok text ∧
      c.setField slot text = Except.ok x) :
    ∃ row d ds, fieldTexts c wp r t.info.Fields = Except.ok row ∧
      fillRow c (t.info.Fields.map some) wp 0 row (createNewOutInner wp t) = Except.ok d ∧
      structFields wp d = some ds ∧ ∀ f ∈ t.info.Fields, ds[f.Num]? = vs[f.Num]? := by
  obtain ⟨row, hrow⟩ := exists_forall₂ (fun (f : fieldInfo) (cell : String) =>
      f.IndexChain = [f.Num] ∧ ∃ slot x, zs[f.Num]? = some slot ∧ vs[f.Num]? = some x ∧
        c.getFieldAsString x = Except.ok cell ∧ c.setField slot cell = Except.ok x)
    t.info.Fields (by
      intro f hf
      obtain ⟨slot, x, text, h1, h2, h3, h4⟩ := hprim f hf
      exact ⟨text, hflat f hf, slot, x, h1, h2, h3, h4⟩)
  have hlen : t.info.Fields.length = row.length := List.Forall₂.length_eq hrow
  have hzip : ∀ (a : fieldInfo) (b : String), (a, b) ∈ t.info.Fields.zip row → _ :=
    fun a b h => (List.forall₂_iff_zip.mp hrow).2 h
  have htexts : fieldTexts c wp r t.info.Fields = Except.ok row := by
    apply fieldTexts_ok
    refine List.Forall₂.imp ?_ hrow
    rintro f cell ⟨hchain, slot, x, _, h2, h3, _⟩
    rw [hchain]
    exact getInnerField_flat c wp r vs f.Num x cell hr h2 h3
  have hnd : ((t.info.Fields.zip row).map (fun a => a.1.Num)).Nodup := by
    have hfst : (t.info.Fields.zip row).map (fun a => a.1.Num) =
        t.info.Fields.map (fun f => f.Num) := by
      have := List.map_fst_zip t.info.Fields row (by omega)
      have h2 : (t.info.Fields.zip row).map (fun a => a.1.Num) =
          ((t.info.Fields.zip row).map Prod.fst).map (fun f => f.Num) := by
        rw [List.map_map]; rfl
      rw [h2, this]
    rw [hfst]
    exact hnum
  have hco : ∀ a ∈ t.info.Fields.zip row, ∃ slot v, zs[a.1.Num]? = some slot ∧
      c.setField slot a.2 = Except.ok v := by
    rintro ⟨f, cell⟩ ha
    obtain ⟨_, slot, x, h1, _, _, h4⟩ := hzip f cell ha
    exact ⟨slot, x, h1, h4⟩
  obtain ⟨rs, hrs, _, hfields, _⟩ := applyAssignments_struct c _ zs hnd hco
  refine ⟨row, if wp then Value.ptr (some (Value.struct rs)) else Value.struct rs, rs, htexts,
    ?_, structFields_wrap wp rs, ?_⟩
  · rw [fillRow_eq_applyAssignments, List.drop_zero, assignments_map_some]
    unfold createNewOutInner
    rw [hzero, applyAssignments_wrap, hrs]
  · intro f hf
    obtain ⟨i, hi⟩ := List.mem_iff_getElem?.mp hf
    obtain ⟨cell, hcell, _, slot, x, h1, h2, _, h4⟩ :=
      forall₂_getElem? _ _ _ hrow i f hi
    have hmem : (f, cell) ∈ t.info.Fields.zip row :=
      List.mem_iff_getElem?.mpr ⟨i, List.getElem?_zip_eq_some.mpr ⟨hi, hcell⟩⟩
    obtain ⟨slot1, v, g1, g2, g3⟩ := hfields (f, cell) hmem
    dsimp only at g1 g2 g3
    rw [h1] at g1
    cases g1
    rw [h4] at g2
    cases g2
    rw [g3, h2]

/-- The flush leaves the sink as it is. -/
theorem flushAndError_fst (w : SafeCSVWriter) : (SafeCSVWriter.flushAndError w).1 = w := by
  unfold SafeCSVWriter.flushAndError
  cases w.flushError <;> rfl

/-- With the header row and the rows of the records at hand, `writeTo` on a sink that
accepts every write writes them in order and ends with the flush. -/
theorem writeTo_ok_of_rows (c : Coercer) (writer : SafeCSVWriter) (inp : Container)
    (header : List String) (rows : List (List String))
    (hkind : inp.kind = Kind.Slice ∨ inp.kind = Kind.Array)
    (hstruct : inp.inner.isStruct = true) (hsink : writer.quota = none)
    (hh : headerLabels inp.inner.info.Fields = Except.ok header)
    (hr : recordRows c inp.innerWasPointer inp.inner.info.Fields inp.elems = Except.ok rows) :
    writeTo c writer inp false =
      SafeCSVWriter.flushAndError { writer with rows := writer.rows ++ header :: rows } := by
  obtain ⟨h1, h2⟩ := writeTo_checks inp hkind hstruct
  unfold writeTo
  rw [h1, h2]
  simp only [Bool.not_false, if_true, hh, hr, List.singleton_append]
  rw [writeRows_ok _ _ hsink]

/-- Two lists read off a list of pairs are related when every pair is. -/
theorem forall₂_of_pairs {α β : Type} (P : α → β → Prop) :
    ∀ ps : List (α × β), (∀ p ∈ ps, P p.1 p.2) →
      List.Forall₂ P (ps.map Prod.fst) (ps.map Prod.snd) := by
  intro ps
  induction ps with
  | nil => intro _; exact List.Forall₂.nil
  | cons p rest ih =>
    intro h
    exact List.Forall₂.cons (h p (List.mem_cons_self _ _))
      (ih (fun q hq => h q (List.mem_cons_of_mem _ hq)))

/-- Members of the second of two related lists have a related member in the first. -/
theorem forall₂_mem_right {α β : Type} (P : α → β → Prop) (l : List α) (ys : List β)
    (h : List.Forall₂ P l ys) : ∀ y ∈ ys, ∃ x ∈ l, P x y := by
  induction h with
  | nil => intro y hy; cases hy
  | cons hxy _ ih =>
    intro y hy
    rcases List.mem_cons.mp hy with rfl | hy
    · exact ⟨_, List.mem_cons_self _ _, hxy⟩
    · obtain ⟨x, hx, hp⟩ := ih y hy
      exact ⟨x, List.mem_cons_of_mem _ hx, hp⟩

/-! ## Whole numbers as text -/

/-- The decimal digit characters are digits, carry their value, and are not the minus
sign. -/
theorem digitChar_props (d : Nat) (hd : d < 10) :
    (Nat.digitChar d).isDigit = true ∧ (Nat.digitChar d).toNat - 48 = d ∧
      Nat.digitChar d ≠ '-' := by
  interval_cases d <;> decide

/-- Parsing a run of digits in two parts. -/
theorem parseDigits_append :
    ∀ (l1 l2 : List Char) (acc : Nat),
      parseDigits (l1 ++ l2) acc = (parseDigits l1 acc).bind (parseDigits l2) := by
  intro l1
  induction l1 with
  | nil => intro l2 acc; rfl
  | cons ch rest ih =>
    intro l2 acc
    simp only [List.cons_append, parseDigits]
    split
    · exact ih l2 _
    · rfl

/-- The accumulator of `Nat.toDigitsCore` is a suffix of its result. -/
theorem toDigitsCore_append (b : Nat) :
    ∀ (f n : Nat) (ds : List Char),
      Nat.toDigitsCore b f n ds = Nat.toDigitsCore b f n [] ++ ds := by
  intro f
  induction f with
  | zero => intro n ds; simp [Nat.toDigitsCore]
  | succ f ih =>
    intro n ds
    simp only [Nat.toDigitsCore]
    split
    · simp
    · rw [ih (n / b) (Nat.digitChar (n % b) :: ds), ih (n / b) [Nat.digitChar (n % b)]]
      simp

/-- Parsing the decimal digits of a number gives the number back. -/
theorem parseDigits_toDigitsCore :
    ∀ (f n : Nat), n < f → ∀ acc : Nat,
      ∃ k ch rest, Nat.toDigitsCore 10 f n [] = ch :: rest ∧ ch ≠ '-' ∧
        parseDigits (Nat.toDigitsCore 10 f n []) acc = some (acc * 10 ^ k + n) := by
  intro f
  induction f with
  | zero => intro n hn; omega
  | succ f ih =>
    intro n hn acc
    obtain ⟨hdig, hval, hminus⟩ := digitChar_props (n % 10) (Nat.mod_lt _ (by decide))
    simp only [Nat.toDigitsCore]
    by_cases h0 : n / 10 = 0
    · rw [if_pos h0]
      refine ⟨1, Nat.digitChar (n % 10), [], rfl, hminus, ?_⟩
      simp only [parseDigits, hdig, if_true, hval]
      congr 1
      omega
    · rw [if_neg h0]
      have hlt : n / 10 < f := by omega
      obtain ⟨k, ch, rest, hcons, hch, hparse⟩ := ih (n / 10) hlt acc
      rw [toDigitsCore_append]
      refine ⟨k + 1, ch, rest ++ [Nat.digitChar (n % 10)], by rw [hcons]; rfl, hch, ?_⟩
      rw [parseDigits_append, hparse]
      simp only [Option.some_bind, parseDigits, hdig, if_true, hval]
      congr 1
      rw [Nat.pow_succ]
      have := Nat.div_add_mod n 10
      nlinarith [Nat.div_add_mod n 10]

/-- Modelled coercion of whole numbers: every 64-bit value is read back from its
decimal text. -/
theorem parseInt_formatInt (i : Int) (hlo : -(2 : Int) ^ 63 ≤ i) (hhi : i < (2 : Int) ^ 63) :
    parseInt (formatInt i) = some i := by
  cases i with
  | ofNat n =>
    obtain ⟨k, ch, rest, hcons, hch, hparse⟩ := parseDigits_toDigitsCore (n + 1) n (by omega) 0
    have hn : n < 2 ^ 63 := by
      have : (n : Int) < (2 : Int) ^ 63 := hhi
      exact_mod_cast this
    unfold parseInt formatInt
    simp only [Nat.toDigits]
    rw [hcons] at hparse ⊢
    split
    · rename_i heq; cases heq
    · rename_i ds heq
      simp only [List.cons.injEq] at heq
      exact absurd heq.1 hch
    · rw [hparse]
      have hn1 : n < 9223372036854775808 := by
        have h63 : 2 ^ 63 = 9223372036854775808 := by norm_num
        omega
      simp [hn1]
  | negSucc n =>
    obtain ⟨k, ch, rest, hcons, hch, hparse⟩ :=
      parseDigits_toDigitsCore (n + 2) (n + 1) (by omega) 0
    have hn : n + 1 ≤ 2 ^ 63 := by
      have : -(2 : Int) ^ 63 ≤ Int.negSucc n := hlo
      have h2 : Int.negSucc n = -((n : Int) + 1) := rfl
      rw [h2] at this
      have h3 : ((n + 1 : Nat) : Int) ≤ (2 : Int) ^ 63 := by push_cast; omega
      exact_mod_cast h3
    unfold parseInt formatInt
    simp only [Nat.toDigits]
    rw [hcons] at hparse ⊢
    simp only [hparse]
    have h63 : 2 ^ 63 = 9223372036854775808 := by norm_num
    have hn1 : n ≤ 9223372036854775807 := by omega
    have h2 : Int.negSucc n = -((n : Int) + 1) := rfl
    simp [hn1, h2]

/-- Round trip for a coercer that reads back what it renders. For a struct type
with at least one mapped field, whose mapped fields have pairwise distinct keys and
positions, are reached by their position and are headed by their key, and for
records whose mapped field values the coercer renders as text that it coerces back
to the same value: the rows `writeTo` writes, headers included, to an empty sink that
accepts every write are decoded by `readTo` into an empty addressable slice without
error, into as many records as there were, in the same order, each equal to its
original on every mapped field. Text values and 64-bit whole numbers are rendered
and coerced back in this way by `primCoercer`. -/
theorem round_trip_of_coercer (c : Coercer) (strict : Bool) (t : StructType) (wp : Bool)
    (zs : List Value) (records : List Value) (writer : SafeCSVWriter)
    (hstruct : t.isStruct = true) (hzero : t.zero = Value.struct zs)
    (hfields : t.info.Fields ≠ [])
    (hkeys : (t.info.Fields.map (fun f => f.Key)).Nodup)
    (hnum : (t.info.Fields.map (fun f => f.Num)).Nodup)
    (hflat : ∀ f ∈ t.info.Fields, f.IndexChain = [f.Num] ∧ f.keys.head? = some f.Key)
    (hsink : writer.rows = [] ∧ writer.quota = none)
    (hprim : ∀ r ∈ records, ∃ vs, structFields wp r = some vs ∧
      ∀ f ∈ t.info.Fields, ∃ slot x text, zs[f.Num]? = some slot ∧ vs[f.Num]? = some x ∧
        c.getFieldAsString x = Except.ok text ∧ c.setField slot text = Except.ok x) :
    (∃ decoded,
      readTo c strict
          (Except.ok (writeTo c writer
            { kind := Kind.Slice, canAddr := true, innerWasPointer := wp, inner := t,
              elems := records } false).1.rows)
          { kind := Kind.Slice, canAddr := true, innerWasPointer := wp, inner := t, elems := [] } =
        ({ kind := Kind.Slice, canAddr := true, innerWasPointer := wp, inner := t,
            elems := decoded }, Except.ok ()) ∧
      decoded.length = records.length ∧
      List.Forall₂ (fun d r => ∃ ds vs, structFields wp d = some ds ∧
        structFields wp r = some vs ∧ ∀ f ∈ t.info.Fields, ds[f.Num]? = vs[f.Num]?)
        decoded records) ∧
    (∀ (ext : Coercer) (x slot : Value),
      ((∃ s z, x = Value.str s ∧ slot = Value.str z) ∨
        (∃ i z, x = Value.int i ∧ slot = Value.int z ∧ -(2 : Int) ^ 63 ≤ i ∧
          i < (2 : Int) ^ 63)) →
      ∃ text, (primCoercer ext).getFieldAsString x = Except.ok text ∧
        (primCoercer ext).setField slot text = Except.ok x) := by
  refine ⟨?_, ?_⟩
  swap
  · intro ext x slot h
    rcases h with ⟨s, z, rfl, rfl⟩ | ⟨i, z, rfl, rfl, hlo, hhi⟩
    · exact ⟨s, rfl, rfl⟩
    · refine ⟨formatInt i, rfl, ?_⟩
      simp only [primCoercer, parseInt_formatInt i hlo hhi]
  let inp : Container :=
    { kind := Kind.Slice, canAddr := true, innerWasPointer := wp, inner := t, elems := records }
  let out : Container :=
    { kind := Kind.Slice, canAddr := true, innerWasPointer := wp, inner := t, elems := [] }
  obtain ⟨pairs, hpairs⟩ := exists_forall₂ (fun (r : Value) (p : List String × Value) =>
      fieldTexts c wp r t.info.Fields = Except.ok p.1 ∧
      fillRow c (t.info.Fields.map some) wp 0 p.1 (createNewOutInner wp t) = Except.ok p.2 ∧
      ∃ ds vs, structFields wp p.2 = some ds ∧ structFields wp r = some vs ∧
        ∀ f ∈ t.info.Fields, ds[f.Num]? = vs[f.Num]?) records (by
      intro r hr
      obtain ⟨vs, hvs, hp⟩ := hprim r hr
      obtain ⟨row, d, ds, h1, h2, h3, h4⟩ :=
        record_round_trip c wp t zs r vs hzero hnum (fun f hf => (hflat f hf).1) hvs hp
      exact ⟨(row, d), h1, h2, ds, vs, h3, hvs, h4⟩)
  have hheader : headerLabels t.info.Fields = Except.ok (t.info.Fields.map (fun f => f.Key)) := by
    apply headerLabels_ok
    rw [List.forall₂_map_right_iff]
    exact List.forall₂_same.mpr (fun f hf => (hflat f hf).2)
  have hrows : recordRows c wp t.info.Fields records = Except.ok (pairs.map Prod.fst) := by
    apply recordRows_ok
    rw [List.forall₂_map_right_iff]
    exact List.Forall₂.imp (fun _ _ h => h.1) hpairs
  have hwrite := writeTo_ok_of_rows c writer inp (t.info.Fields.map (fun f => f.Key))
    (pairs.map Prod.fst) (Or.inl rfl) hstruct hsink.2 hheader hrows
  have hsrc : (writeTo c writer inp false).1.rows =
      t.info.Fields.map (fun f => f.Key) :: pairs.map Prod.fst := by
    rw [hwrite, flushAndError_fst]
    simp [hsink.1]
  have hdec : List.Forall₂ (fun row r =>
      fillRow c (csvHeadersLabels (t.info.Fields.map (fun f => f.Key)) out.inner.info)
        out.innerWasPointer 0 row (createNewOutInner out.innerWasPointer out.inner) =
          Except.ok r) (pairs.map Prod.fst) (pairs.map Prod.snd) := by
    apply forall₂_of_pairs
    intro p hp
    obtain ⟨r, _, hr⟩ := forall₂_mem_right _ _ _ hpairs p hp
    show fillRow c (csvHeadersLabels (t.info.Fields.map (fun f => f.Key)) t.info) wp 0 p.1
      (createNewOutInner wp t) = Except.ok p.2
    rw [csvHeadersLabels_keys t.info hkeys]
    exact hr.2.1
  have hread := readTo_ok_of_rows c strict (t.info.Fields.map (fun f => f.Key))
    (pairs.map Prod.fst) out (pairs.map Prod.snd) (Or.inl ⟨rfl, Or.inl rfl⟩) hstruct hfields
    (fun _ => maybeMissingStructFields_none _ _ (fun f hf => List.mem_map.mpr ⟨f, hf, rfl⟩))
    hdec
  refine ⟨pairs.map Prod.snd, ?_, ?_, ?_⟩
  · show readTo c strict (Except.ok (writeTo c writer inp false).1.rows) out = _
    rw [hsrc, hread]
    simp [out]
  · rw [List.length_map]
    exact (List.Forall₂.length_eq hpairs).symm
  · rw [List.forall₂_map_left_iff]
    exact List.Forall₂.flip (List.Forall₂.imp (fun _ _ h => h.2.2) hpairs)

/-- The records `{abc,123}` and `{def,-234}` of `MultiTagSample` through `writeTo` and
back through `readTo`. -/
theorem round_trip_of_coercer_instance :
    ∃ decoded,
      readTo (primCoercer noCoercer) true
          (Except.ok (writeTo (primCoercer noCoercer) freshWriter
            { kind := Kind.Slice, canAddr := true, innerWasPointer := false,
              inner := MultiTagSample,
              elems := [Value.struct [Value.str "abc", Value.int 123],
                Value.struct [Value.str "def", Value.int (-234)]] } false).1.rows)
          { kind := Kind.Slice, canAddr := true, innerWasPointer := false,
            inner := MultiTagSample, elems := [] } =
        ({ kind := Kind.Slice, canAddr := true, innerWasPointer := false,
            inner := MultiTagSample, elems := decoded }, Except.ok ()) ∧
      decoded.length = 2 := by
  obtain ⟨⟨decoded, h1, h2, _⟩, _⟩ := round_trip_of_coercer (primCoercer noCoercer) true MultiTagSample false
    [Value.str "", Value.int 0]
    [Value.struct [Value.str "abc", Value.int 123],
      Value.struct [Value.str "def", Value.int (-234)]] freshWriter rfl rfl (by decide)
    (by decide) (by decide)
    (by
      intro f hf
      simp only [MultiTagSample, List.mem_cons, List.mem_singleton, List.not_mem_nil,
        or_false] at hf
      rcases hf with rfl | rfl <;> exact ⟨rfl, rfl⟩)
    ⟨rfl, rfl⟩
    (by
      intro r hr
      simp only [List.mem_cons, List.mem_singleton, List.not_mem_nil, or_false] at hr
      rcases hr with rfl | rfl
      · refine ⟨_, rfl, ?_⟩
        intro f hf
        simp only [MultiTagSample, List.mem_cons, List.mem_singleton, List.not_mem_nil,
          or_false] at hf
        rcases hf with rfl | rfl
        · exact ⟨_, _, _, rfl, rfl, rfl, rfl⟩
        · exact ⟨_, _, _, rfl, rfl, rfl, rfl⟩
      · refine ⟨_, rfl, ?_⟩
        intro f hf
        simp only [MultiTagSample, List.mem_cons, List.mem_singleton, List.not_mem_nil,
          or_false] at hf
        rcases hf with rfl | rfl
        · exact ⟨_, _, _, rfl, rfl, rfl, rfl⟩
        · exact ⟨_, _, _, rfl, rfl, rfl, rfl⟩)
  exact ⟨decoded, h1, h2⟩

/-! ## No mappable field -/

/-- C11: when the type descriptor of the element type has no mappable field, `readTo`
returns an error for every destination, every row source (an empty one included) and
either setting of `FailIfUnmatchedStructTags`, and it decodes no record: the outcome
does not depend on the coercer, and the destination keeps its elements or, when an
addressable slice was grown before the check, holds zero values only. For an
addressable slice of structs the error is "no csv struct tags found", although
`maybeMissingStructFields` returns nil for the empty descriptor whatever the
headers. -/
theorem no_fields_fatal (c : Coercer) (strict : Bool)
    (source : Except String (List (List String))) (out : Container)
    (hno : out.inner.info.Fields = []) :
    (∃ e, (readTo c strict source out).2 = Except.error (Failure.error e)) ∧
      (∀ c1 : Coercer, readTo c1 strict source out = readTo c strict source out) ∧
      ((readTo c strict source out).1.elems = out.elems ∨
        ∃ n, (readTo c strict source out).1.elems = List.replicate n (zeroElem out)) ∧
      (out.kind = Kind.Slice → out.canAddr = true → out.inner.isStruct = true →
        ∀ csvRows, (readTo c strict (Except.ok csvRows) out).2 =
          Except.error (Failure.error Err.noTags)) ∧
      (∀ headers, maybeMissingStructFields out.inner.info.Fields headers = none) := by
  have hlen : out.inner.info.Fields.length = 0 := by rw [hno]; rfl
  have hshape : ∀ c0 : Coercer, readTo c0 strict source out =
      match ensureOutType out.kind with
      | some e => (out, Except.error (Failure.error e))
      | none =>
        match ensureOutInnerType out.inner with
        | some e => (out, Except.error (Failure.error e))
        | none =>
          match source with
          | Except.error m => (out, Except.error (Failure.error (Err.source m)))
          | Except.ok csvRows =>
            match ensureOutCapacity out csvRows.length with
            | (out1, some e) => (out1, Except.error (Failure.error e))
            | (out1, none) => (out1, Except.error (Failure.error Err.noTags)) := by
    intro c0
    unfold readTo
    cases ensureOutType out.kind with
    | some e => rfl
    | none =>
      dsimp only
      cases ensureOutInnerType out.inner with
      | some e => rfl
      | none =>
        dsimp only
        cases source with
        | error m => rfl
        | ok csvRows =>
          dsimp only
          cases ensureOutCapacity out csvRows.length with
          | mk out1 e =>
            cases e with
            | some e => rfl
            | none =>
              dsimp only
              rw [if_pos hlen]
  refine ⟨?_, ?_, ?_, ?_, ?_⟩
  · rw [hshape c]
    cases ensureOutType out.kind with
    | some e => exact ⟨e, rfl⟩
    | none =>
      dsimp only
      cases ensureOutInnerType out.inner with
      | some e => exact ⟨e, rfl⟩
      | none =>
        dsimp only
        cases source with
        | error m => exact ⟨Err.source m, rfl⟩
        | ok csvRows =>
          dsimp only
          cases ensureOutCapacity out csvRows.length with
          | mk out1 e =>
            cases e with
            | some e => exact ⟨e, rfl⟩
            | none => exact ⟨Err.noTags, rfl⟩
  · intro c1
    rw [hshape c1, hshape c]
  · rw [hshape c]
    cases ensureOutType out.kind with
    | some e => exact Or.inl rfl
    | none =>
      dsimp only
      cases ensureOutInnerType out.inner with
      | some e => exact Or.inl rfl
      | none =>
        dsimp only
        cases source with
        | error m => exact Or.inl rfl
        | ok csvRows =>
          dsimp only
          have hcap : (ensureOutCapacity out csvRows.length).1.elems = out.elems ∨
              ∃ n, (ensureOutCapacity out csvRows.length).1.elems =
                List.replicate n (zeroElem out) := by
            unfold ensureOutCapacity
            split
            · split <;> exact Or.inl rfl
            · split
              · exact Or.inl rfl
              · split
                · exact Or.inr ⟨_, rfl⟩
                · exact Or.inl rfl
            · exact Or.inl rfl
          cases hc : ensureOutCapacity out csvRows.length with
          | mk out1 e =>
            rw [hc] at hcap
            cases e <;> exact hcap
  · intro hk hc hs csvRows
    have hcap : ∃ out1, ensureOutCapacity out csvRows.length = (out1, none) := by
      unfold ensureOutCapacity
      rw [hk]
      simp only [hc, Bool.not_true, Bool.false_and, Bool.false_eq_true, if_false,
        Bool.true_and]
      split
      · exact ⟨_, rfl⟩
      · exact ⟨_, rfl⟩
    obtain ⟨out1, hcap⟩ := hcap
    unfold readTo
    rw [hk]
    simp only [ensureOutType, ensureOutInnerType, hs, if_true, hcap, hlen]
  · intro headers
    unfold maybeMissingStructFields
    rw [if_pos hlen]

/-- A struct without csv tags, decoded from a header row and a data row into an empty
addressable slice in the non-strict setting. -/
theorem no_fields_fatal_witness :
    (readTo (primCoercer noCoercer) false (Except.ok [["foo"], ["a"]])
        (sliceOf { isStruct := true, info := { Fields := [] }, zero := Value.struct [] } [])).2 =
      Except.error (Failure.error Err.noTags) :=
  (no_fields_fatal (primCoercer noCoercer) false (Except.ok [["foo"], ["a"]])
    (sliceOf { isStruct := true, info := { Fields := [] }, zero := Value.struct [] } [])
    rfl).2.2.2.1 rfl rfl rfl [["foo"], ["a"]]

/-! ## Coercion failure -/

/-- The row loop on a row in two parts: the second part continues from the record the
first part left, and is not run when the first part fails. -/
theorem fillRow_append (c : Coercer) (labels : List (Option fieldInfo)) (wp : Bool) :
    ∀ (a b : List String) (j : Nat) (o : Value),
      fillRow c labels wp j (a ++ b) o =
        match fillRow c labels wp j a o with
        | Except.ok o1 => fillRow c labels wp (j + a.length) b o1
        | Except.error e => Except.error e := by
  intro a
  induction a with
  | nil => intro b j o; simp [fillRow]
  | cons cell rest ih =>
    intro b j o
    rw [List.cons_append, fillRow, fillRow]
    cases labels[j]?.join with
    | none =>
      dsimp only
      rw [ih b (j + 1) o]
      simp only [List.length_cons]
      have : j + 1 + rest.length = j + (rest.length + 1) := by omega
      rw [this]
    | some f =>
      dsimp only
      cases setInnerField c o wp f.Num cell with
      | error e => rfl
      | ok o1 =>
        dsimp only
        rw [ih b (j + 1) o1]
        simp only [List.length_cons]
        have : j + 1 + rest.length = j + (rest.length + 1) := by omega
        rw [this]

/-- A cell that the coercer rejects for the slot of its field makes `setInnerField`
return the error of the coercer, unchanged. -/
theorem setInnerField_fails (c : Coercer) (wp : Bool) (o : Value) (fs : List Value)
    (n : Nat) (slot : Value) (cell m : String) (ho : structFields wp o = some fs)
    (hslot : fs[n]? = some slot) (hfail : c.setField slot cell = Except.error m) :
    setInnerField c o wp n cell = Except.error (Failure.error (Err.field m)) := by
  cases wp with
  | false =>
    cases o with
    | struct gs =>
      simp only [structFields, Option.some.injEq] at ho
      subst ho
      simp only [setInnerField, Bool.false_eq_true, if_false, setStructField, hslot, hfail]
    | _ => simp [structFields] at ho
  | true =>
    cases o with
    | ptr target =>
      cases target with
      | none => simp [structFields] at ho
      | some s =>
        cases s with
        | struct gs =>
          simp only [structFields, Option.some.injEq] at ho
          subst ho
          simp only [setInnerField, if_true, setStructField, hslot, hfail]
        | _ => simp [structFields] at ho
    | _ => simp [structFields] at ho

/-- When the rows before a row decode and that row fails, the row loop stores the
records decoded before it, returns the failure, and does not look at later rows. -/
theorem fillBody_fails (c : Coercer) (labels : List (Option fieldInfo)) (row : List String)
    (post : List (List String)) (e : Failure) :
    ∀ (pre : List (List String)) (results : List Value) (i : Nat) (out : Container),
      List.Forall₂ (fun row r => fillRow c labels out.innerWasPointer 0 row
        (createNewOutInner out.innerWasPointer out.inner) = Except.ok r) pre results →
      fillRow c labels out.innerWasPointer 0 row
        (createNewOutInner out.innerWasPointer out.inner) = Except.error e →
      i + pre.length ≤ out.elems.length →
      ¬ (out.kind = Kind.Array ∧ out.canAddr = false) →
      fillBody c labels i (pre ++ row :: post) out =
        ({ out with elems := out.elems.take i ++ results ++ out.elems.drop (i + pre.length) },
          Except.error e) := by
  intro pre
  induction pre with
  | nil =>
    intro results i out h hrow _ _
    cases h
    rw [List.nil_append, fillBody, hrow]
    simp
  | cons r0 rest ih =>
    intro results i out h hrow hlen hkind
    cases h with
    | @cons _ r _ rs hr0 hrest =>
      have hi : i < out.elems.length := by simp at hlen; omega
      rw [List.cons_append, fillBody, hr0]
      dsimp only
      unfold setIndex
      rw [if_pos hi, if_neg hkind]
      dsimp only
      have hstep := ih rs (i + 1) { out with elems := out.elems.set i r } hrest hrow
        (by simp at hlen ⊢; omega) hkind
      rw [hstep]
      have hl : (out.elems.set i r).take (i + 1) ++ rs ++
          (out.elems.set i r).drop (i + 1 + rest.length) =
          out.elems.take i ++ r :: rs ++ out.elems.drop (i + (r0 :: rest).length) := by
        rw [List.set_eq_take_append_cons_drop]
        rw [if_pos hi]
        have h1 : (List.take i out.elems).length = i := by
          simp; omega
        rw [List.take_append_eq_append_take, List.drop_append_eq_append_drop]
        simp [h1, List.take_take]
        have h2 : i + 1 + rest.length - i = (rest.length) + 1 := by omega
        rw [h2, List.drop_succ_cons, List.drop_drop]
        have h3 : List.drop (i + 1 + rest.length) (List.take i out.elems) = [] := by
          apply List.drop_of_length_le
          simp; omega
        rw [h3]
        simp only [List.nil_append]
        congr 1
        omega
      simp only [hl]

/-- With a valid and sufficient destination and a header row that the strict setting
accepts: when the rows `pre` decode, the cells `before` of the next row decode, and
the coercer rejects the next cell, which is mapped, `readTo` returns the error of the
coercer and leaves the records of `pre` followed by what the grown destination held
from there on. -/
theorem readTo_fails_at (c : Coercer) (strict : Bool) (headers : List String)
    (pre post : List (List String)) (before after : List String) (cell : String)
    (out : Container) (results : List Value) (o : Value) (fs : List Value) (f : fieldInfo)
    (slot : Value) (m : String)
    (hsuff : sufficient out (pre ++ (before ++ cell :: after) :: post).length)
    (hstruct : out.inner.isStruct = true)
    (hstrict : strict = true → maybeMissingStructFields out.inner.info.Fields headers = none)
    (hpre : List.Forall₂ (fun row r => fillRow c (csvHeadersLabels headers out.inner.info)
      out.innerWasPointer 0 row (createNewOutInner out.innerWasPointer out.inner) =
        Except.ok r) pre results)
    (hbefore : fillRow c (csvHeadersLabels headers out.inner.info) out.innerWasPointer 0
      before (createNewOutInner out.innerWasPointer out.inner) = Except.ok o)
    (hmapped : (csvHeadersLabels headers out.inner.info)[before.length]?.join = some f)
    (ho : structFields out.innerWasPointer o = some fs) (hslot : fs[f.Num]? = some slot)
    (hfail : c.setField slot cell = Except.error m) :
    readTo c strict (Except.ok (headers :: (pre ++ (before ++ cell :: after) :: post))) out =
      ({ out with
          elems := results ++
            (grown out (pre ++ (before ++ cell :: after) :: post).length).elems.drop
              pre.length },
        Except.error (Failure.error (Err.field m))) := by
  have hfields : out.inner.info.Fields ≠ [] := by
    intro h
    have := (csvHeadersLabels_mem headers out.inner.info _ f hmapped).1
    rw [h] at this
    cases this
  obtain ⟨_, hk, hc, hwp, hinner, hge, _⟩ := ensureOutCapacity_sufficient out _ hsuff
  have hrow : fillRow c (csvHeadersLabels headers out.inner.info) out.innerWasPointer 0
      (before ++ cell :: after) (createNewOutInner out.innerWasPointer out.inner) =
      Except.error (Failure.error (Err.field m)) := by
    rw [fillRow_append, hbefore]
    dsimp only
    rw [Nat.zero_add, fillRow, hmapped]
    dsimp only
    rw [setInnerField_fails c _ o fs f.Num slot cell m ho hslot hfail]
  rw [readTo_eq_fillBody c strict headers _ out hsuff hstruct hfields hstrict]
  have hpre1 : List.Forall₂ (fun row r => fillRow c (csvHeadersLabels headers out.inner.info)
      (grown out (pre ++ (before ++ cell :: after) :: post).length).innerWasPointer 0 row
      (createNewOutInner (grown out (pre ++ (before ++ cell :: after) :: post).length).innerWasPointer
        (grown out (pre ++ (before ++ cell :: after) :: post).length).inner) =
        Except.ok r) pre results := by
    rw [hwp, hinner]; exact hpre
  have hrow1 : fillRow c (csvHeadersLabels headers out.inner.info)
      (grown out (pre ++ (before ++ cell :: after) :: post).length).innerWasPointer 0
      (before ++ cell :: after)
      (createNewOutInner (grown out (pre ++ (before ++ cell :: after) :: post).length).innerWasPointer
        (grown out (pre ++ (before ++ cell :: after) :: post).length).inner) =
      Except.error (Failure.error (Err.field m)) := by
    rw [hwp, hinner]; exact hrow
  have hkind : ¬ ((grown out (pre ++ (before ++ cell :: after) :: post).length).kind = Kind.Array ∧
      (grown out (pre ++ (before ++ cell :: after) :: post).length).canAddr = false) := by
    rw [hk, hc]
    rcases hsuff with ⟨h1, _⟩ | ⟨_, h2, _⟩
    · rw [h1]; simp
    · rw [h2]; simp
  rw [fillBody_fails c _ _ post _ pre results 0 _ hpre1 hrow1
    (by simp at hge ⊢; omega) hkind]
  simp only [List.take_zero, List.nil_append, Nat.zero_add, hk, hc, hwp, hinner]

/-- C12 (counterexample): the first cell that fails to coerce is in the first data row
of one input and in the second data row of another, and in the first column of one
input and in the second column of another; `readTo` returns the same error for all
four, the error of the coercion with neither row nor column. -/
theorem coercion_error_counterexample :
    (readTo (primCoercer noCoercer) false (Except.ok [["BAR"], ["x"]])
        (sliceOf Sample3 [])).2 =
      Except.error (Failure.error (Err.field "cannot parse x as a whole number")) ∧
    (readTo (primCoercer noCoercer) false (Except.ok [["BAR"], ["1"], ["x"]])
        (sliceOf Sample3 [])).2 =
      Except.error (Failure.error (Err.field "cannot parse x as a whole number")) ∧
    (readTo (primCoercer noCoercer) false (Except.ok [["BAR", "foo"], ["x", "a"]])
        (sliceOf Sample3 [])).2 =
      Except.error (Failure.error (Err.field "cannot parse x as a whole number")) ∧
    (readTo (primCoercer noCoercer) false (Except.ok [["foo", "BAR"], ["a", "x"]])
        (sliceOf Sample3 [])).2 =
      Except.error (Failure.error (Err.field "cannot parse x as a whole number")) := by
  refine ⟨rfl, rfl, rfl, rfl⟩

/-- C12 (amended): with a valid and sufficient destination and a header row that the
strict setting accepts, when the rows before a row decode, the cells before a mapped
cell of that row decode, and the coercer rejects that cell, `readTo` aborts there: it
returns the error of the coercer unchanged, it leaves the records of the earlier rows
in the destination, and neither the later cells of the row nor the later rows are
decoded, the outcome being the same whatever they hold. The error carries neither
row nor column. -/
theorem coercion_failure (c : Coercer) (strict : Bool) (headers : List String)
    (pre post : List (List String)) (before after : List String) (cell : String)
    (out : Container) (results : List Value) (o : Value) (fs : List Value) (f : fieldInfo)
    (slot : Value) (m : String)
    (hsuff : sufficient out (pre ++ (before ++ cell :: after) :: post).length)
    (hstruct : out.inner.isStruct = true)
    (hstrict : strict = true → maybeMissingStructFields out.inner.info.Fields headers = none)
    (hpre : List.Forall₂ (fun row r => fillRow c (csvHeadersLabels headers out.inner.info)
      out.innerWasPointer 0 row (createNewOutInner out.innerWasPointer out.inner) =
        Except.ok r) pre results)
    (hbefore : fillRow c (csvHeadersLabels headers out.inner.info) out.innerWasPointer 0
      before (createNewOutInner out.innerWasPointer out.inner) = Except.ok o)
    (hmapped : (csvHeadersLabels headers out.inner.info)[before.length]?.join = some f)
    (ho : structFields out.innerWasPointer o = some fs) (hslot : fs[f.Num]? = some slot)
    (hfail : c.setField slot cell = Except.error m) :
    (readTo c strict (Except.ok (headers :: (pre ++ (before ++ cell :: after) :: post)))
        out).2 = Except.error (Failure.error (Err.field m)) ∧
      (readTo c strict (Except.ok (headers :: (pre ++ (before ++ cell :: after) :: post)))
        out).1.elems.take pre.length = results ∧
      (∀ (after1 : List String) (post1 : List (List String)), post1.length = post.length →
        readTo c strict (Except.ok (headers :: (pre ++ (before ++ cell :: after1) :: post1)))
            out =
          readTo c strict (Except.ok (headers :: (pre ++ (before ++ cell :: after) :: post)))
            out) := by
  have hmain := readTo_fails_at c strict headers pre post before after cell out results o fs f
    slot m hsuff hstruct hstrict hpre hbefore hmapped ho hslot hfail
  have hlen : results.length = pre.length := (List.Forall₂.length_eq hpre).symm
  refine ⟨by rw [hmain], ?_, ?_⟩
  · rw [hmain]
    dsimp only
    rw [List.take_append_of_le_length (by omega), ← hlen, List.take_length]
  · intro after1 post1 hpost
    have hl : (pre ++ (before ++ cell :: after1) :: post1).length =
        (pre ++ (before ++ cell :: after) :: post).length := by
      simp [hpost]
    have hsuff1 : sufficient out (pre ++ (before ++ cell :: after1) :: post1).length := by
      rw [hl]; exact hsuff
    rw [hmain, readTo_fails_at c strict headers pre post1 before after1 cell out results o fs f
      slot m hsuff1 hstruct hstrict hpre hbefore hmapped ho hslot hfail, hl]

/-- The rows `foo,BAR / a,1 / b,x / c,2` into the three-field record: the first row
decodes, `x` in the second is rejected. -/
theorem coercion_failure_witness :
    (readTo (primCoercer noCoercer) false
        (Except.ok [["foo", "BAR"], ["a", "1"], ["b", "x"], ["c", "2"]])
        (sliceOf Sample3 [])).2 =
      Except.error (Failure.error (Err.field "cannot parse x as a whole number")) :=
  (coercion_failure (primCoercer noCoercer) false ["foo", "BAR"] [["a", "1"]] [["c", "2"]]
    ["b"] [] "x" (sliceOf Sample3 [])
    [Value.struct [Value.str "a", Value.int 1, Value.str ""]]
    (Value.struct [Value.str "b", Value.int 0, Value.str ""])
    [Value.str "b", Value.int 0, Value.str ""] (plainField 1 "BAR" [] false) (Value.int 0)
    "cannot parse x as a whole number" (Or.inl ⟨rfl, Or.inl rfl⟩) rfl (fun h => by cases h)
    (List.Forall₂.cons rfl List.Forall₂.nil) rfl rfl rfl rfl rfl).1

/-! ## Conversion failure while encoding -/

/-- The row of a record fails with the failure of the first field that does not
convert. -/
theorem fieldTexts_fails (c : Coercer) (wp : Bool) (v : Value) (f : fieldInfo)
    (fpost : List fieldInfo) (e : Failure)
    (hfail : getInnerField c v wp f.IndexChain = Except.error e) :
    ∀ (fpre : List fieldInfo) (cells : List String),
      List.Forall₂ (fun g cell => getInnerField c v wp g.IndexChain = Except.ok cell)
        fpre cells →
      fieldTexts c wp v (fpre ++ f :: fpost) = Except.error e := by
  intro fpre cells h
  induction h with
  | nil => rw [List.nil_append, fieldTexts, hfail]
  | cons hcell _ ih => rw [List.cons_append, fieldTexts, hcell, ih]

/-- The rows of a collection fail with the failure of the first record that does not
convert. -/
theorem recordRows_fails (c : Coercer) (wp : Bool) (fields : List fieldInfo) (v : Value)
    (post : List Value) (e : Failure)
    (hfail : fieldTexts c wp v fields = Except.error e) :
    ∀ (pre : List Value) (rows : List (List String)),
      List.Forall₂ (fun r row => fieldTexts c wp r fields = Except.ok row) pre rows →
      recordRows c wp fields (pre ++ v :: post) = Except.error e := by
  intro pre rows h
  induction h with
  | nil => rw [List.nil_append, recordRows, hfail]
  | cons hrow _ ih => rw [List.cons_append, recordRows, hrow, ih]

/-- The loop of `writeFromChan` writes the rows of the elements that convert, and
stops with the failure of the first element that does not. -/
theorem chanLoop_fails (c : Coercer) (inType : ElemKind) (wp : Bool) (fields : List fieldInfo)
    (hty : ensureStructOrPtr inType = none) (v : ChanValue) (post : List ChanValue)
    (e : Failure) (hfail : fieldTexts c wp v.value fields = Except.error e) :
    ∀ (pre : List ChanValue) (rows : List (List String)) (w : SafeCSVWriter),
      w.quota = none →
      List.Forall₂ (fun x row => fieldTexts c wp x.value fields = Except.ok row) pre rows →
      chanLoop c inType wp fields (pre ++ v :: post) w =
        ({ w with rows := w.rows ++ rows }, Except.error e) := by
  intro pre rows w hq h
  induction h generalizing w with
  | nil =>
    rw [List.nil_append, chanLoop, hty]
    dsimp only
    unfold chanWrite
    rw [hfail]
    simp
  | @cons x row xs rs hrow _ ih =>
    rw [List.cons_append, chanLoop, hty]
    dsimp only
    have hw : w.Write row = ({ w with rows := w.rows ++ [row] }, none) := by
      unfold SafeCSVWriter.Write
      rw [hq]
    unfold chanWrite
    rw [hrow]
    dsimp only
    rw [hw]
    dsimp only
    have hstep := ih { w with rows := w.rows ++ [row] } hq
    rw [hstep]
    simp

/-- C13: for a slice or array of structs whose descriptor has a first alias for every
field, when the records before a record convert and a field of that record fails to
convert after the fields before it converted, `writeTo` returns that error and leaves
the sink exactly as it was, with or without headers and whatever the sink would have
accepted: neither the header row nor the row of an earlier record is written. The
same record received from a channel after a first element and further elements that
convert makes `writeFromChan` return that error after it has written the header row
and the rows of all those earlier elements. -/
theorem encode_failure (c : Coercer) (writer : SafeCSVWriter) (inp : Container)
    (omitHeaders : Bool) (pre post : List Value) (v : Value) (fpre fpost : List fieldInfo)
    (f : fieldInfo) (cells header : List String) (m : String)
    (hkind : inp.kind = Kind.Slice ∨ inp.kind = Kind.Array)
    (hstruct : inp.inner.isStruct = true)
    (helems : inp.elems = pre ++ v :: post)
    (hfields : inp.inner.info.Fields = fpre ++ f :: fpost)
    (hheader : List.Forall₂ (fun g k => g.keys.head? = some k) inp.inner.info.Fields header)
    (hpre : ∀ r ∈ pre, ∃ row,
      fieldTexts c inp.innerWasPointer r inp.inner.info.Fields = Except.ok row)
    (hcells : List.Forall₂ (fun g cell =>
      getInnerField c v inp.innerWasPointer g.IndexChain = Except.ok cell) fpre cells)
    (hfail : getInnerField c v inp.innerWasPointer f.IndexChain =
      Except.error (Failure.error (Err.field m))) :
    writeTo c writer inp omitHeaders = (writer, Except.error (Failure.error (Err.field m))) ∧
      (∀ (firstValue : ChanValue) (cpre cpost : List ChanValue) (crows : List (List String)),
        writer.quota = none → ensureStructOrPtr firstValue.kind = none →
        firstValue.info = inp.inner.info →
        decide (firstValue.kind = ElemKind.Ptr) = inp.innerWasPointer →
        List.Forall₂ (fun x row =>
          fieldTexts c inp.innerWasPointer x.value inp.inner.info.Fields = Except.ok row)
          (firstValue :: cpre) crows →
        writeFromChan c writer
            (firstValue ::
              (cpre ++ { value := v, kind := firstValue.kind, info := firstValue.info } ::
                cpost)) =
          ({ writer with rows := writer.rows ++ header :: crows },
            Except.error (Failure.error (Err.field m))) ∧
          1 ≤ crows.length) := by
  have hv : fieldTexts c inp.innerWasPointer v inp.inner.info.Fields =
      Except.error (Failure.error (Err.field m)) := by
    rw [hfields]
    exact fieldTexts_fails c _ v f fpost _ hfail fpre cells hcells
  have hh := headerLabels_ok _ _ hheader
  constructor
  · obtain ⟨rows, hrows⟩ := exists_forall₂ _ pre hpre
    have hr := recordRows_fails c inp.innerWasPointer inp.inner.info.Fields v post _ hv
      pre rows hrows
    obtain ⟨h1, h2⟩ := writeTo_checks inp hkind hstruct
    unfold writeTo
    rw [h1, h2, helems]
    dsimp only
    rw [hr, hh]
    cases omitHeaders <;> rfl
  · intro firstValue cpre cpost crows hsink hty hinfo hwp hrows
    cases hrows with
    | @cons _ row _ rs hfirst hrest =>
      have hw : writer.Write header =
          ({ writer with rows := writer.rows ++ [header] }, none) := by
        unfold SafeCSVWriter.Write
        rw [hsink]
      have hw2 : SafeCSVWriter.Write { writer with rows := writer.rows ++ [header] } row =
          ({ writer with rows := writer.rows ++ [header] ++ [row] }, none) := by
        unfold SafeCSVWriter.Write
        dsimp only
        rw [hsink]
      have hloop := chanLoop_fails c firstValue.kind inp.innerWasPointer inp.inner.info.Fields
        hty { value := v, kind := firstValue.kind, info := inp.inner.info } cpost _ hv cpre rs
        { writer with rows := writer.rows ++ [header] ++ [row] } hsink hrest
      refine ⟨?_, by simp⟩
      unfold writeFromChan
      dsimp only
      rw [hty]
      dsimp only
      rw [hinfo, hh]
      dsimp only
      rw [hw]
      dsimp only
      unfold chanWrite
      rw [hwp, hfirst]
      dsimp only
      rw [hw2]
      dsimp only
      rw [hloop]
      simp

/-- Two records of `MyType`, the second with a `Bar` that the coercer cannot render:
nothing reaches the sink. -/
theorem encode_failure_witness :
    writeTo (primCoercer noCoercer) freshWriter
        (sliceOf MyType
          [Value.struct [Value.str "foo", Value.ptr none, Value.str "baz"],
            Value.struct [Value.str "foo", Value.ptr (some (Value.str "bar")),
              Value.str "baz"]]) false =
      (freshWriter, Except.error (Failure.error (Err.field "unsupported kind"))) :=
  (encode_failure (primCoercer noCoercer) freshWriter
    (sliceOf MyType
      [Value.struct [Value.str "foo", Value.ptr none, Value.str "baz"],
        Value.struct [Value.str "foo", Value.ptr (some (Value.str "bar")), Value.str "baz"]])
    false [Value.struct [Value.str "foo", Value.ptr none, Value.str "baz"]] []
    (Value.struct [Value.str "foo", Value.ptr (some (Value.str "bar")), Value.str "baz"])
    [plainField 0 "foo" [] false] [plainField 2 "baz" [] false] (plainField 1 "bar" [] true)
    ["foo"] ["foo", "bar", "baz"] "unsupported kind" (Or.inl rfl) rfl rfl rfl
    (List.Forall₂.cons rfl (List.Forall₂.cons rfl (List.Forall₂.cons rfl List.Forall₂.nil)))
    (by
      intro r hr
      simp only [List.mem_singleton] at hr
      subst hr
      exact ⟨_, rfl⟩)
    (List.Forall₂.cons rfl List.Forall₂.nil) rfl).1

/-! ## Round trip of the primitive kinds -/

/-- The decimal numeral of a number is not empty and is read back as the number. -/
theorem decimalCodec_faithful : decimalCodec.faithful := by
  intro x
  obtain ⟨k, ch, rest, hcons, _, hparse⟩ := parseDigits_toDigitsCore (x + 1) x (by omega) 0
  constructor
  · intro h
    have hd := congrArg String.data h
    simp only [decimalCodec, Nat.toDigits] at hd
    rw [hcons] at hd
    cases hd
  · simp only [decimalCodec, Nat.toDigits]
    rw [hparse]
    simp

/-- The modelled coercer reads back the text it renders for a value of a primitive
kind, the floating-point and timestamp text forms being faithful. -/
theorem specCoercer_primitive (float time : TextCodec) (hfloat : float.faithful)
    (htime : time.faithful) (slot x : Value) (h : primitiveField slot x) :
    ∃ text, (specCoercer float time).getFieldAsString x = Except.ok text ∧
      (specCoercer float time).setField slot text = Except.ok x := by
  cases slot <;> cases x <;> simp only [primitiveField] at h
  case str.str z s => exact ⟨s, rfl, rfl⟩
  case int.int z i =>
    refine ⟨formatInt i, rfl, ?_⟩
    simp only [specCoercer, primCoercer, parseInt_formatInt i h.1 h.2]
  case bool.bool z b =>
    refine ⟨formatBool b, rfl, ?_⟩
    cases b <;> simp [specCoercer, primCoercer, kindCoercer, formatBool, parseBool]
  case float.float z y =>
    refine ⟨float.format y, rfl, ?_⟩
    simp only [specCoercer, primCoercer, kindCoercer, if_neg (hfloat y).1, (hfloat y).2]
  case time.time z y =>
    refine ⟨time.format y, rfl, ?_⟩
    simp only [specCoercer, primCoercer, kindCoercer, if_neg (htime y).1, (htime y).2]

/-- C1: round trip. For a struct type with at least one mapped field, whose mapped
fields are all of a primitive kind (text, 64-bit whole number, boolean, floating
point, timestamp), have pairwise distinct keys and positions, are reached by their
position and are headed by their key: the rows `writeTo` writes, headers included,
for any list of records of that type to an empty sink that accepts every write are
decoded by `readTo` into an empty addressable slice without error, into as many
records as there were, in the same order, each equal to its original on every mapped
field. The coercions are those of `specCoercer`; the text forms of floating point
and timestamp are any that are faithful. -/
theorem round_trip (float time : TextCodec) (strict : Bool) (t : StructType) (wp : Bool)
    (zs : List Value) (records : List Value) (writer : SafeCSVWriter)
    (hfloat : float.faithful) (htime : time.faithful)
    (hstruct : t.isStruct = true) (hzero : t.zero = Value.struct zs)
    (hfields : t.info.Fields ≠ [])
    (hkeys : (t.info.Fields.map (fun f => f.Key)).Nodup)
    (hnum : (t.info.Fields.map (fun f => f.Num)).Nodup)
    (hflat : ∀ f ∈ t.info.Fields, f.IndexChain = [f.Num] ∧ f.keys.head? = some f.Key)
    (hsink : writer.rows = [] ∧ writer.quota = none)
    (hprim : ∀ r ∈ records, ∃ vs, structFields wp r = some vs ∧
      ∀ f ∈ t.info.Fields, ∃ slot x, zs[f.Num]? = some slot ∧ vs[f.Num]? = some x ∧
        primitiveField slot x) :
    ∃ decoded,
      readTo (specCoercer float time) strict
          (Except.ok (writeTo (specCoercer float time) writer
            { kind := Kind.Slice, canAddr := true, innerWasPointer := wp, inner := t,
              elems := records } false).1.rows)
          { kind := Kind.Slice, canAddr := true, innerWasPointer := wp, inner := t, elems := [] } =
        ({ kind := Kind.Slice, canAddr := true, innerWasPointer := wp, inner := t,
            elems := decoded }, Except.ok ()) ∧
      decoded.length = records.length ∧
      List.Forall₂ (fun d r => ∃ ds vs, structFields wp d = some ds ∧
        structFields wp r = some vs ∧ ∀ f ∈ t.info.Fields, ds[f.Num]? = vs[f.Num]?)
        decoded records := by
  refine (round_trip_of_coercer (specCoercer float time) strict t wp zs records writer hstruct
    hzero hfields hkeys hnum hflat hsink ?_).1
  intro r hr
  obtain ⟨vs, hvs, hall⟩ := hprim r hr
  refine ⟨vs, hvs, ?_⟩
  intro f hf
  obtain ⟨slot, x, h1, h2, h3⟩ := hall f hf
  obtain ⟨text, h4, h5⟩ := specCoercer_primitive float time hfloat htime slot x h3
  exact ⟨slot, x, text, h1, h2, h4, h5⟩

/-- Two records with a text, a whole number, a boolean, a floating-point number and a
timestamp each, through `writeTo` and back through `readTo`. -/
theorem round_trip_witness :
    ∃ decoded,
      readTo (specCoercer decimalCodec decimalCodec) true
          (Except.ok (writeTo (specCoercer decimalCodec decimalCodec) freshWriter
            { kind := Kind.Slice, canAddr := true, innerWasPointer := false,
              inner := Primitives,
              elems :=
                [Value.struct [Value.str "abc", Value.int (-5), Value.bool true,
                    Value.float 4607182418800017408, Value.time 60000000000],
                  Value.struct [Value.str "", Value.int 0, Value.bool false,
                    Value.float 0, Value.time 0]] } false).1.rows)
          { kind := Kind.Slice, canAddr := true, innerWasPointer := false,
            inner := Primitives, elems := [] } =
        ({ kind := Kind.Slice, canAddr := true, innerWasPointer := false,
            inner := Primitives, elems := decoded }, Except.ok ()) ∧
      decoded.length = 2 := by
  obtain ⟨decoded, h1, h2, _⟩ := round_trip decimalCodec decimalCodec true Primitives false
    [Value.str "", Value.int 0, Value.bool false, Value.float 0, Value.time 0]
    [Value.struct [Value.str "abc", Value.int (-5), Value.bool true,
        Value.float 4607182418800017408, Value.time 60000000000],
      Value.struct [Value.str "", Value.int 0, Value.bool false, Value.float 0,
        Value.time 0]] freshWriter decimalCodec_faithful decimalCodec_faithful rfl rfl
    (by decide) (by decide) (by decide)
    (by
      intro f hf
      simp only [Primitives, List.mem_cons, List.mem_singleton, List.not_mem_nil,
        or_false] at hf
      rcases hf with rfl | rfl | rfl | rfl | rfl <;> exact ⟨rfl, rfl⟩)
    ⟨rfl, rfl⟩
    (by
      intro r hr
      simp only [List.mem_cons, List.mem_singleton, List.not_mem_nil, or_false] at hr
      rcases hr with rfl | rfl
      all_goals
        refine ⟨_, rfl, ?_⟩
        intro f hf
        simp only [Primitives, List.mem_cons, List.mem_singleton, List.not_mem_nil,
          or_false] at hf
        rcases hf with rfl | rfl | rfl | rfl | rfl
        all_goals
          refine ⟨_, _, rfl, rfl, ?_⟩
          first
            | exact trivial
            | exact And.intro (by decide) (by decide))
  exact ⟨decoded, h1, h2⟩

end gocsv
